import Mathlib

/-!
A shallow embedding of the view-state machine and fetch-orchestration layer of
the arangotui terminal client (src/main.rs), together with proofs about it.

The embedding follows the Rust source function by function:

* data records mirror the structs `CollectionInfo`, `CollectionWithCount`,
  `EdgeDefinition`, `GraphInfo`, `DatabaseStats`, `DatabaseBrowser`;
* `BrowserView`, `InputState` mirror the enums of the same names;
* `find_selected_graph_item`, `total_rows`, the collection sort of
  `load_collections`, and the key handling of `run_database_browser` are
  translated into pure Lean functions;
* remote fetches are modelled by a `FetchOracle` argument: each fetch either
  fails or returns data, exactly the two outcomes the controller distinguishes;
  the requests a step issues are returned as an explicit log;
* the `?`-propagation of a fetch error out of `run_database_browser` is
  modelled by the `StepOutcome.fatal` outcome, `return Ok(())` by
  `StepOutcome.quit`.

Machine integers: the Rust code indexes with `usize`.  All index arithmetic in
the source is bounded by list lengths, so plain `Nat` is a faithful model; the
one saturating operation (`saturating_add` on the scroll offset) is modelled
with an explicit cap at 2^64 - 1, and `saturating_sub` is `Nat` subtraction.
-/

/-- Mirrors Rust struct `CollectionInfo` (fields used by the browser). -/
structure CollectionInfo where
  id : String
  name : String
  status : Nat
  collection_type : Nat
  is_system : Bool
  globally_unique_id : String
deriving Repr, DecidableEq

/-- Mirrors Rust struct `CollectionWithCount`. -/
structure CollectionWithCount where
  info : CollectionInfo
  count : Option Nat
deriving Repr, DecidableEq

/-- Mirrors Rust struct `EdgeDefinition`; `from` is a Lean keyword, hence
`from_colls` / `to_colls`. -/
structure EdgeDefinition where
  collection : String
  from_colls : List String
  to_colls : List String
deriving Repr, DecidableEq

/-- Mirrors Rust struct `GraphInfo` (fields the browser reads; the remaining
fields are opaque payload never inspected by the state machine). -/
structure GraphInfo where
  id : String
  key : String
  rev : String
  edge_definitions : List EdgeDefinition
  orphan_collections : List String
  name : String
  is_smart : Option Bool
  is_disjoint : Option Bool
deriving Repr, DecidableEq

/-- Mirrors Rust struct `DatabaseStats`. -/
structure DatabaseStats where
  name : String
  doc_collections : Nat
  edge_collections : Nat
  system_collections : Nat
  accessible : Bool
deriving Repr, DecidableEq

/-- Mirrors Rust struct `CollectionCount` (the collection-detail payload);
the state machine stores it opaquely, so only a representative subset of the
fields is carried. -/
structure CollectionCount where
  name : String
  collection_type : Nat
  status : Nat
  count : Nat
  is_system : Bool
deriving Repr, DecidableEq

/-- Documents are opaque JSON values to the state machine; modelled as their
serialized text. -/
abbrev DocValue := String

/-- Mirrors Rust enum `BrowserView`. -/
inductive BrowserView where
  | databaseList
  | collectionList (db : String)
  | graphList (db : String)
  | collectionProperties (db coll : String)
  | documentViewer (db coll : String)
  | graphProperties (db graph : String)
deriving Repr, DecidableEq

/-- Mirrors Rust enum `InputState`. -/
inductive InputState where
  | noInput
  | enteringDocumentCount (input : String)
deriving Repr, DecidableEq

/-- Mirrors Rust struct `DatabaseBrowser`.  The Rust `navigation_stack` is a
`Vec` pushed/popped at the back; it is modelled as a list whose head is the
top of the stack. -/
structure DatabaseBrowser where
  view : BrowserView
  database_stats : List DatabaseStats
  selected_db_index : Nat
  collections : List CollectionWithCount
  selected_coll_index : Nat
  graphs : List GraphInfo
  selected_graph_index : Nat
  collection_details : Option CollectionCount
  scroll_offset : Nat
  accessible : Bool
  input_state : InputState
  documents : List DocValue
  navigation_stack : List (BrowserView × Nat)
  graph_details : Option GraphInfo
deriving Repr, DecidableEq

/-- Mirrors `DatabaseBrowser::new`. -/
def DatabaseBrowser.new : DatabaseBrowser where
  view := .databaseList
  database_stats := []
  selected_db_index := 0
  collections := []
  selected_coll_index := 0
  graphs := []
  selected_graph_index := 0
  collection_details := none
  scroll_offset := 0
  accessible := true
  input_state := .noInput
  documents := []
  navigation_stack := []
  graph_details := none

/-- Largest `usize` value (64-bit targets). -/
def usizeMax : Nat := 2 ^ 64 - 1

/-- Rust `usize::saturating_add` on the `Nat` model. -/
def usizeSatAdd (a b : Nat) : Nat := min (a + b) usizeMax

/-- Rust `str::parse::<usize>` digit accumulation; `none` on a non-digit. -/
def parseDigitsAux : Option Nat → List Char → Option Nat
  | acc, [] => acc
  | none, _ :: _ => none
  | some n, c :: cs =>
      if c.isDigit then parseDigitsAux (some (n * 10 + (c.toNat - 48))) cs
      else parseDigitsAux none cs

/-- Rust `str::parse::<usize>`: an optional leading plus sign, then at least
one ASCII digit, value within `usize` range; `none` models `Err`. -/
def parse_usize (s : String) : Option Nat :=
  let cs := match s.data with
    | '+' :: rest => rest
    | cs => cs
  if cs.isEmpty then none
  else match parseDigitsAux (some 0) cs with
    | none => none
    | some n => if n ≤ usizeMax then some n else none

/-- Rust `input.parse().unwrap_or(10)` from the modal confirm branch. -/
def parse_or_ten (s : String) : Nat := (parse_usize s).getD 10

/-- Lexicographic comparison of the character data of two strings by code
point; this is the order `Ord` on Rust `String` uses (UTF-8 byte order agrees
with code-point order). -/
def charListCmp : List Char → List Char → Ordering
  | [], [] => .eq
  | [], _ :: _ => .lt
  | _ :: _, [] => .gt
  | a :: as, b :: bs =>
      if a.toNat < b.toNat then .lt
      else if b.toNat < a.toNat then .gt
      else charListCmp as bs

/-- String comparison used by the collection sort. -/
def strCmp (a b : String) : Ordering := charListCmp a.data b.data

/-- The comparator closure of `DatabaseBrowser::load_collections`:
non-system collections sort before system ones, ties broken by name. -/
def collCmp (a b : CollectionWithCount) : Ordering :=
  match a.info.is_system, b.info.is_system with
  | false, true => .lt
  | true, false => .gt
  | _, _ => strCmp a.info.name b.info.name

/-- Insert into a sorted list, after every element the new one does not
strictly precede; with a stable starting list this reproduces the result of
Rust's stable `slice::sort_by`. -/
def insertOrdered (cmp : α → α → Ordering) (x : α) : List α → List α
  | [] => [x]
  | y :: ys => if cmp x y = .lt then x :: y :: ys else y :: insertOrdered cmp x ys

/-- Stable sort by an `Ordering` comparator (insertion sort); extensionally
equal to Rust's stable `slice::sort_by` with the same comparator. -/
def sortByCmp (cmp : α → α → Ordering) (l : List α) : List α :=
  l.foldl (fun acc x => insertOrdered cmp x acc) []

/-- The sort performed at the end of `DatabaseBrowser::load_collections`. -/
def sortCollections (l : List CollectionWithCount) : List CollectionWithCount :=
  sortByCmp collCmp l

/-- Inner loop of `DatabaseBrowser::find_selected_graph_item` over the edge
definitions of one graph: returns the matching edge index (if the target row
is one of these rows) and the row counter after the loop. -/
def fsgiEdges (target : Nat) : List EdgeDefinition → Nat → Nat → Option Nat × Nat
  | [], currentRow, _ => (none, currentRow)
  | _ :: rest, currentRow, edgeIdx =>
      if currentRow = target then (some edgeIdx, currentRow)
      else fsgiEdges target rest (currentRow + 1) (edgeIdx + 1)

/-- Outer loop of `DatabaseBrowser::find_selected_graph_item`; `total` is the
length of the full graph list (for the trailing-spacer test
`graph_idx < self.graphs.len() - 1`). -/
def fsgiGraphs (target total : Nat) : List GraphInfo → Nat → Nat → Option (Nat × Option Nat)
  | [], _, _ => none
  | graph :: rest, graphIdx, currentRow =>
      if currentRow = target then some (graphIdx, none)
      else
        match fsgiEdges target graph.edge_definitions (currentRow + 1) 0 with
        | (some edgeIdx, _) => some (graphIdx, some edgeIdx)
        | (none, row) =>
            fsgiGraphs target total rest (graphIdx + 1)
              (if graphIdx < total - 1 then row + 1 else row)

/-- Mirrors `DatabaseBrowser::find_selected_graph_item`. -/
def find_selected_graph_item (b : DatabaseBrowser) : Option (Nat × Option Nat) :=
  fsgiGraphs b.selected_graph_index b.graphs.length b.graphs 0 0

/-- Mirrors the `total_rows` computation of the Down/Up arms of the
`GraphList` branch of `run_database_browser`: one row per graph, one per edge
definition, one spacer between consecutive graphs (`saturating_sub 1`). -/
def total_rows (graphs : List GraphInfo) : Nat :=
  (graphs.foldl (fun acc g => acc + 1 + g.edge_definitions.length) 0) +
    (graphs.length - 1)

/-- One row of the flattened graph listing as `render_graph_list` builds it. -/
inductive GraphRow where
  | header (graphIdx : Nat)
  | edge (graphIdx edgeIdx : Nat)
  | spacer
deriving Repr, DecidableEq

/-- The rows `render_graph_list` pushes for a single graph: the header row
followed by one row per edge definition. -/
def graphRowsOf (graphIdx : Nat) (g : GraphInfo) : List GraphRow :=
  .header graphIdx :: (List.range g.edge_definitions.length).map (.edge graphIdx ·)

/-- Row construction of `render_graph_list`, with the starting graph index as
accumulator: each graph's rows, a spacer after every graph but the last. -/
def flattenAux : Nat → List GraphInfo → List GraphRow
  | _, [] => []
  | graphIdx, [g] => graphRowsOf graphIdx g
  | graphIdx, g :: rest => graphRowsOf graphIdx g ++ .spacer :: flattenAux (graphIdx + 1) rest

/-- The full flattened row listing of `render_graph_list`, in document order. -/
def flattenRows (graphs : List GraphInfo) : List GraphRow := flattenAux 0 graphs

/-- What a row resolves to in `find_selected_graph_item` terms: a header is
`(graphIdx, none)`, an edge row `(graphIdx, some edgeIdx)`, a spacer nothing. -/
def rowItem : GraphRow → Option (Nat × Option Nat)
  | .header graphIdx => some (graphIdx, none)
  | .edge graphIdx edgeIdx => some (graphIdx, some edgeIdx)
  | .spacer => none

/-- Resolve a cursor against a row listing (out of range resolves to nothing,
like a spacer). -/
def resolveRows (rows : List GraphRow) (c : Nat) : Option (Nat × Option Nat) :=
  match rows.get? c with
  | some r => rowItem r
  | none => none

/-- The events `run_database_browser` distinguishes.  `other` stands for every
key code that falls into a `_ => {}` arm in all states. -/
inductive KeyCode where
  | char (c : Char)
  | down
  | up
  | enter
  | esc
  | backspace
  | pageDown
  | pageUp
  | other
deriving Repr, DecidableEq

/-- One remote read request, as issued by the loader methods. -/
inductive FetchReq where
  | reqDatabases
  | reqCollections (db : String)
  | reqCollectionDetails (db coll : String)
  | reqGraphs (db : String)
  | reqDocuments (db coll : String) (limit : Nat)
deriving Repr, DecidableEq

/-- Responses of the remote server for one step.  Each fetch either fails
(`Except.error`) or returns decoded data; per-collection count fetches inside
`load_collections` degrade to `none` counts individually, so they are part of
the returned data.  The database fetch bundles `get_databases` with the
never-failing per-database `get_database_stats` calls. -/
structure FetchOracle where
  databases : Except Unit (List DatabaseStats)
  collections : String → Except Unit (List CollectionWithCount)
  collectionDetails : String → String → Except Unit CollectionCount
  graphs : String → Except Unit (List GraphInfo)
  documents : String → String → Nat → Except Unit (List DocValue)

/-- Mirrors `DatabaseBrowser::load_databases`: a failing database fetch flips
the sticky `accessible` flag and is otherwise swallowed (the method returns
`Ok` in both arms). -/
def load_databases (b : DatabaseBrowser) (res : Except Unit (List DatabaseStats)) :
    DatabaseBrowser :=
  match res with
  | .ok stats =>
      { b with accessible := true, database_stats := stats, selected_db_index := 0 }
  | .error _ => { b with accessible := false }

/-- Mirrors `DatabaseBrowser::load_collections`: on success the sorted list
replaces the old one and the selection and scroll reset; a fetch error is
propagated (the Rust `?`). -/
def load_collections (b : DatabaseBrowser)
    (res : Except Unit (List CollectionWithCount)) : Except Unit DatabaseBrowser :=
  match res with
  | .error e => .error e
  | .ok colls =>
      .ok { b with collections := sortCollections colls,
                   selected_coll_index := 0, scroll_offset := 0 }

/-- Mirrors `DatabaseBrowser::load_collection_details`. -/
def load_collection_details (b : DatabaseBrowser)
    (res : Except Unit CollectionCount) : Except Unit DatabaseBrowser :=
  match res with
  | .error e => .error e
  | .ok details =>
      .ok { b with collection_details := some details, scroll_offset := 0 }

/-- Mirrors `DatabaseBrowser::load_graphs`. -/
def load_graphs (b : DatabaseBrowser)
    (res : Except Unit (List GraphInfo)) : Except Unit DatabaseBrowser :=
  match res with
  | .error e => .error e
  | .ok gs =>
      .ok { b with graphs := gs, selected_graph_index := 0, scroll_offset := 0 }

/-- Mirrors `DatabaseBrowser::load_documents`. -/
def load_documents (b : DatabaseBrowser)
    (res : Except Unit (List DocValue)) : Except Unit DatabaseBrowser :=
  match res with
  | .error e => .error e
  | .ok docs => .ok { b with documents := docs, scroll_offset := 0 }

/-- Mirrors `DatabaseBrowser::load_graph_details`: purely local, slices the
graph out of the already-loaded list. -/
def load_graph_details (b : DatabaseBrowser) (graph_name : String) :
    DatabaseBrowser :=
  { b with graph_details := b.graphs.find? (fun g => g.name = graph_name),
           scroll_offset := 0 }

/-- Outcome of handling one key event in `run_database_browser`'s loop:
continue with a new state, leave the browser normally (`return Ok(())`), or
propagate a fetch error out of the loop (`?`), which aborts the browser and
the whole program. -/
inductive StepOutcome where
  | next (b : DatabaseBrowser)
  | quit
  | fatal
deriving Repr, DecidableEq

/-- A step result: the outcome plus the log of fetch requests issued. -/
abbrev StepResult := StepOutcome × List FetchReq

/-- Fallback element for the guarded `Vec` index accesses. -/
def dummyCollection : CollectionWithCount :=
  { info := { id := "", name := "", status := 0, collection_type := 0,
              is_system := false, globally_unique_id := "" }, count := none }

/-- Fallback element for the guarded `Vec` index accesses. -/
def dummyGraph : GraphInfo :=
  { id := "", key := "", rev := "", edge_definitions := [],
    orphan_collections := [], name := "", is_smart := none, is_disjoint := none }

/-- Fallback element for the guarded `Vec` index accesses. -/
def dummyEdgeDef : EdgeDefinition :=
  { collection := "", from_colls := [], to_colls := [] }

/-- The modal branch of the event loop (`InputState::EnteringDocumentCount`):
digits append, backspace pops, Enter confirms (parse-or-10, close, and on the
collection list trigger the document fetch), Esc cancels, everything else is
swallowed; the underlying view never sees the event. -/
def stepModal (oracle : FetchOracle) (b : DatabaseBrowser) (input : String)
    (key : KeyCode) : StepResult :=
  match key with
  | .char c =>
      if c.isDigit then
        (.next { b with input_state := .enteringDocumentCount (input.push c) }, [])
      else (.next b, [])
  | .backspace =>
      (.next { b with input_state := .enteringDocumentCount (input.dropRight 1) }, [])
  | .enter =>
      let count := parse_or_ten input
      let b := { b with input_state := .noInput }
      match b.view with
      | .collectionList db =>
          if b.selected_coll_index < b.collections.length then
            let coll_name :=
              (b.collections.getD b.selected_coll_index dummyCollection).info.name
            match load_documents b (oracle.documents db coll_name count) with
            | .error _ => (.fatal, [.reqDocuments db coll_name count])
            | .ok b' =>
                (.next { b' with view := .documentViewer db coll_name },
                 [.reqDocuments db coll_name count])
          else (.next b, [])
      | _ => (.next b, [])
  | .esc => (.next { b with input_state := .noInput }, [])
  | _ => (.next b, [])

/-- The `BrowserView::DatabaseList` arm of the event loop. -/
def stepDatabaseList (oracle : FetchOracle) (b : DatabaseBrowser)
    (key : KeyCode) : StepResult :=
  match key with
  | .char 'q' | .esc => (.quit, [])
  | .down | .char 'j' =>
      if b.database_stats ≠ [] then
        (.next { b with selected_db_index :=
                   (b.selected_db_index + 1) % b.database_stats.length }, [])
      else (.next b, [])
  | .up | .char 'k' =>
      if b.database_stats ≠ [] then
        (.next { b with selected_db_index :=
                   if b.selected_db_index = 0 then b.database_stats.length - 1
                   else b.selected_db_index - 1 }, [])
      else (.next b, [])
  | .enter =>
      if b.selected_db_index < b.database_stats.length then
        let stats := b.database_stats.getD b.selected_db_index
          { name := "", doc_collections := 0, edge_collections := 0,
            system_collections := 0, accessible := false }
        if stats.accessible then
          match load_collections b (oracle.collections stats.name) with
          | .error _ => (.fatal, [.reqCollections stats.name])
          | .ok b' =>
              (.next { b' with view := .collectionList stats.name },
               [.reqCollections stats.name])
        else (.next b, [])
      else (.next b, [])
  | _ => (.next b, [])

/-- The `BrowserView::CollectionList` arm of the event loop. -/
def stepCollectionList (oracle : FetchOracle) (b : DatabaseBrowser) (db : String)
    (key : KeyCode) : StepResult :=
  match key with
  | .char 'q' | .esc =>
      (.next { b with view := .databaseList, collections := [] }, [])
  | .backspace =>
      match b.navigation_stack with
      | [] => (.next b, [])
      | (prev_view, prev_index) :: rest =>
          let b := { b with navigation_stack := rest }
          match prev_view with
          | .graphList prev_db =>
              match load_graphs b (oracle.graphs prev_db) with
              | .error _ => (.fatal, [.reqGraphs prev_db])
              | .ok b' =>
                  (.next { b' with selected_graph_index := prev_index,
                                   view := prev_view }, [.reqGraphs prev_db])
          | _ => (.next { b with view := prev_view }, [])
  | .char 'g' | .char 'G' =>
      match load_graphs b (oracle.graphs db) with
      | .error _ => (.fatal, [.reqGraphs db])
      | .ok b' => (.next { b' with view := .graphList db }, [.reqGraphs db])
  | .char ' ' =>
      (.next { b with input_state := .enteringDocumentCount "10" }, [])
  | .down | .char 'j' =>
      if b.collections ≠ [] then
        (.next { b with selected_coll_index :=
                   (b.selected_coll_index + 1) % b.collections.length }, [])
      else (.next b, [])
  | .up | .char 'k' =>
      if b.collections ≠ [] then
        (.next { b with selected_coll_index :=
                   if b.selected_coll_index = 0 then b.collections.length - 1
                   else b.selected_coll_index - 1 }, [])
      else (.next b, [])
  | .enter =>
      if b.selected_coll_index < b.collections.length then
        let coll_name :=
          (b.collections.getD b.selected_coll_index dummyCollection).info.name
        match load_collection_details b (oracle.collectionDetails db coll_name) with
        | .error _ => (.fatal, [.reqCollectionDetails db coll_name])
        | .ok b' =>
            (.next { b' with view := .collectionProperties db coll_name },
             [.reqCollectionDetails db coll_name])
      else (.next b, [])
  | _ => (.next b, [])

/-- The `BrowserView::GraphList` arm of the event loop. -/
def stepGraphList (oracle : FetchOracle) (b : DatabaseBrowser) (db : String)
    (key : KeyCode) : StepResult :=
  match key with
  | .char 'q' | .esc =>
      (.next { b with view := .databaseList, graphs := [] }, [])
  | .char 'c' | .char 'C' =>
      (.next { b with view := .collectionList db }, [])
  | .enter =>
      match find_selected_graph_item b with
      | none => (.next b, [])
      | some (graph_idx, none) =>
          let graph_name := (b.graphs.getD graph_idx dummyGraph).name
          let b' := load_graph_details b graph_name
          (.next { b' with view := .graphProperties db graph_name }, [])
      | some (graph_idx, some edge_idx) =>
          let edge_collection :=
            ((b.graphs.getD graph_idx dummyGraph).edge_definitions.getD edge_idx
              dummyEdgeDef).collection
          let b := { b with navigation_stack :=
                       (b.view, b.selected_graph_index) :: b.navigation_stack }
          match load_collections b (oracle.collections db) with
          | .error _ => (.fatal, [.reqCollections db])
          | .ok b' =>
              let b' := match b'.collections.findIdx?
                          (fun c => c.info.name = edge_collection) with
                | some pos => { b' with selected_coll_index := pos }
                | none => b'
              (.next { b' with view := .collectionList db }, [.reqCollections db])
  | .char 'v' | .char 'V' =>
      match find_selected_graph_item b with
      | some (graph_idx, some edge_idx) =>
          let edge_def :=
            (b.graphs.getD graph_idx dummyGraph).edge_definitions.getD edge_idx
              dummyEdgeDef
          match edge_def.from_colls.head? with
          | none => (.next b, [])
          | some first_from =>
              let b := { b with navigation_stack :=
                           (b.view, b.selected_graph_index) :: b.navigation_stack }
              match load_collections b (oracle.collections db) with
              | .error _ => (.fatal, [.reqCollections db])
              | .ok b' =>
                  let b' := match b'.collections.findIdx?
                              (fun c => c.info.name = first_from) with
                    | some pos => { b' with selected_coll_index := pos }
                    | none => b'
                  (.next { b' with view := .collectionList db }, [.reqCollections db])
      | _ => (.next b, [])
  | .down | .char 'j' =>
      if b.graphs ≠ [] then
        let t := total_rows b.graphs
        if 0 < t then
          (.next { b with selected_graph_index :=
                     (b.selected_graph_index + 1) % t }, [])
        else (.next b, [])
      else (.next b, [])
  | .up | .char 'k' =>
      if b.graphs ≠ [] then
        let t := total_rows b.graphs
        if 0 < t then
          (.next { b with selected_graph_index :=
                     if b.selected_graph_index = 0 then t - 1
                     else b.selected_graph_index - 1 }, [])
        else (.next b, [])
      else (.next b, [])
  | _ => (.next b, [])

/-- The `BrowserView::CollectionProperties` arm of the event loop. -/
def stepCollectionProperties (b : DatabaseBrowser) (db : String)
    (key : KeyCode) : StepResult :=
  match key with
  | .char 'q' | .esc =>
      (.next { b with view := .collectionList db, collection_details := none,
                      scroll_offset := 0 }, [])
  | .down | .char 'j' =>
      (.next { b with scroll_offset := usizeSatAdd b.scroll_offset 1 }, [])
  | .up | .char 'k' =>
      (.next { b with scroll_offset := b.scroll_offset - 1 }, [])
  | .pageDown =>
      (.next { b with scroll_offset := usizeSatAdd b.scroll_offset 10 }, [])
  | .pageUp =>
      (.next { b with scroll_offset := b.scroll_offset - 10 }, [])
  | _ => (.next b, [])

/-- The `BrowserView::DocumentViewer` arm of the event loop. -/
def stepDocumentViewer (b : DatabaseBrowser) (db : String)
    (key : KeyCode) : StepResult :=
  match key with
  | .char 'q' | .esc =>
      (.next { b with view := .collectionList db, documents := [],
                      scroll_offset := 0 }, [])
  | .down | .char 'j' =>
      (.next { b with scroll_offset := usizeSatAdd b.scroll_offset 1 }, [])
  | .up | .char 'k' =>
      (.next { b with scroll_offset := b.scroll_offset - 1 }, [])
  | .pageDown =>
      (.next { b with scroll_offset := usizeSatAdd b.scroll_offset 10 }, [])
  | .pageUp =>
      (.next { b with scroll_offset := b.scroll_offset - 10 }, [])
  | _ => (.next b, [])

/-- The `BrowserView::GraphProperties` arm of the event loop. -/
def stepGraphProperties (b : DatabaseBrowser) (db : String)
    (key : KeyCode) : StepResult :=
  match key with
  | .char 'q' | .esc =>
      (.next { b with view := .graphList db, graph_details := none,
                      scroll_offset := 0 }, [])
  | .down | .char 'j' =>
      (.next { b with scroll_offset := usizeSatAdd b.scroll_offset 1 }, [])
  | .up | .char 'k' =>
      (.next { b with scroll_offset := b.scroll_offset - 1 }, [])
  | .pageDown =>
      (.next { b with scroll_offset := usizeSatAdd b.scroll_offset 10 }, [])
  | .pageUp =>
      (.next { b with scroll_offset := b.scroll_offset - 10 }, [])
  | _ => (.next b, [])

/-- One key-press iteration of `run_database_browser`'s event loop: the input
modal is consulted first and, if active, consumes the event; otherwise the
event is dispatched on the current view.  -/
def step (oracle : FetchOracle) (b : DatabaseBrowser) (key : KeyCode) :
    StepResult :=
  match b.input_state with
  | .enteringDocumentCount input => stepModal oracle b input key
  | .noInput =>
      match b.view with
      | .databaseList => stepDatabaseList oracle b key
      | .collectionList db => stepCollectionList oracle b db key
      | .graphList db => stepGraphList oracle b db key
      | .collectionProperties db _ => stepCollectionProperties b db key
      | .documentViewer db _ => stepDocumentViewer b db key
      | .graphProperties db _ => stepGraphProperties b db key

/-- The state `run_database_browser` enters its loop with: a fresh browser
after the initial `load_databases` (whose failure only clears `accessible`). -/
def initBrowser (oracle : FetchOracle) : DatabaseBrowser :=
  load_databases DatabaseBrowser.new oracle.databases

/-- A browser state is reachable if some sequence of key events, with
arbitrary per-event server responses, leads to it from a start state. -/
inductive Reachable : DatabaseBrowser → Prop where
  | init (oracle : FetchOracle) : Reachable (initBrowser oracle)
  | step (oracle : FetchOracle) (key : KeyCode) (b b' : DatabaseBrowser) :
      Reachable b → (step oracle b key).1 = .next b' → Reachable b'

/-! Concrete sample data used by scenario instances, witnesses and
counterexamples. -/

/-- A collection entry with the given name, system flag and type. -/
def mkColl (name : String) (sys : Bool) (ty : Nat) : CollectionWithCount :=
  { info := { id := "1", name := name, status := 3, collection_type := ty,
              is_system := sys, globally_unique_id := name }, count := some 0 }

/-- An edge definition with the given edge collection and endpoints. -/
def mkEdgeDef (coll : String) (fs ts : List String) : EdgeDefinition :=
  { collection := coll, from_colls := fs, to_colls := ts }

/-- A graph with the given name and edge definitions. -/
def mkGraph (name : String) (eds : List EdgeDefinition) : GraphInfo :=
  { id := "_graphs/" ++ name, key := name, rev := "1", edge_definitions := eds,
    orphan_collections := [], name := name, is_smart := none,
    is_disjoint := none }

/-- An accessible database entry. -/
def mkDb (name : String) : DatabaseStats :=
  { name := name, doc_collections := 1, edge_collections := 0,
    system_collections := 0, accessible := true }

/-- Scenario B graph `g1` with edge definitions `e1`, `e2`. -/
def sampleG1 : GraphInfo :=
  mkGraph "g1" [mkEdgeDef "e1" ["v1"] ["v2"], mkEdgeDef "e2" ["v3"] ["v4"]]

/-- Scenario B graph `g2` with no edge definitions. -/
def sampleG2 : GraphInfo := mkGraph "g2" []

/-- A row of the listing is well formed with respect to the graph list: a
header addresses an existing graph, an edge row an existing edge definition of
that graph. -/
def rowWF (graphs : List GraphInfo) : GraphRow → Prop
  | .header gi => gi < graphs.length
  | .edge gi ei => gi < graphs.length ∧
      ei < ((graphs.getD gi dummyGraph).edge_definitions.length)
  | .spacer => True

/-! Selection-index validity: definitions and preservation. -/

/-- The database-list cursor is in bounds (trivially so for an empty list,
which renders without a cursor row). -/
def dbIndexOk (b : DatabaseBrowser) : Prop :=
  b.selected_db_index < b.database_stats.length ∨ b.database_stats = []

/-- The collection-list cursor is in bounds. -/
def collIndexOk (b : DatabaseBrowser) : Prop :=
  b.selected_coll_index < b.collections.length ∨ b.collections = []

/-- The graph-view cursor addresses one of the flattened rows. -/
def graphIndexOk (b : DatabaseBrowser) : Prop :=
  b.selected_graph_index < total_rows b.graphs ∨ b.graphs = []

/-- Validity of the active view's selection index, as the claim states it. -/
def activeSelectionOk (b : DatabaseBrowser) : Prop :=
  match b.view with
  | .databaseList => dbIndexOk b
  | .collectionList _ => collIndexOk b
  | .graphList _ => graphIndexOk b
  | _ => True

/-- The inductive invariant that actually holds: the database cursor is always
in bounds, and the collection cursor is in bounds whenever any view other than
the database list is active (those views can return to the collection list
without reloading it). -/
def SelInv (b : DatabaseBrowser) : Prop :=
  dbIndexOk b ∧ (b.view ≠ .databaseList → collIndexOk b)

/-! Concrete states and server responses for scenario instances. -/

/-- A sample collection-detail payload. -/
def okDetails : CollectionCount :=
  { name := "c0", collection_type := 2, status := 3, count := 0,
    is_system := false }

/-- A server where every read succeeds with the given data. -/
def okOracle (dbs : List DatabaseStats) (colls : List CollectionWithCount)
    (gs : List GraphInfo) : FetchOracle where
  databases := .ok dbs
  collections := fun _ => .ok colls
  collectionDetails := fun _ _ => .ok okDetails
  graphs := fun _ => .ok gs
  documents := fun _ _ _ => .ok []

/-- A server whose database list succeeds but every per-database read fails. -/
def oracleFailColls : FetchOracle where
  databases := .ok [mkDb "d"]
  collections := fun _ => .error ()
  collectionDetails := fun _ _ => .error ()
  graphs := fun _ => .error ()
  documents := fun _ _ _ => .error ()

/-- Database list showing one accessible database `d`. -/
def cB2 : DatabaseBrowser :=
  { DatabaseBrowser.new with database_stats := [mkDb "d"] }

/-- Collection list of database `db` with one collection `c0` loaded. -/
def cB6 : DatabaseBrowser :=
  { DatabaseBrowser.new with
    view := .collectionList "db",
    database_stats := [mkDb "db"],
    collections := [mkColl "c0" false 2] }

/-- The oracle serving `cB6`. -/
def oracle6 : FetchOracle := okOracle [mkDb "db"] [mkColl "c0" false 2] []

/-- `cB6` with the document-count modal just opened (pre-filled `"10"`). -/
def cB6a : DatabaseBrowser :=
  { cB6 with input_state := .enteringDocumentCount "10" }

/-- `cB6a` after typing the digit `1`. -/
def cB6b : DatabaseBrowser :=
  { cB6 with input_state := .enteringDocumentCount "101" }

/-- `cB6b` after typing the digit `0`. -/
def cB6c : DatabaseBrowser :=
  { cB6 with input_state := .enteringDocumentCount "1010" }

/-- A graph whose single edge definition is backed by edge collection
`knows`. -/
def graphKnows : GraphInfo :=
  mkGraph "gK" [mkEdgeDef "knows" ["person"] ["person"]]

/-- Collections of the scenario-E database: sorted, `knows` lands at index 3. -/
def knowsColls : List CollectionWithCount :=
  [mkColl "knows" false 3, mkColl "a1" false 2, mkColl "a2" false 2,
   mkColl "a3" false 2, mkColl "z" false 2]

/-- The oracle serving scenario E. -/
def oracle7 : FetchOracle := okOracle [mkDb "d"] knowsColls [graphKnows]

/-- Graph view of database `d`, cursor on the edge-definition row of
`knows` (flattened row 1). -/
def cB7 : DatabaseBrowser :=
  { DatabaseBrowser.new with
    view := .graphList "d",
    database_stats := [mkDb "d"],
    graphs := [graphKnows],
    selected_graph_index := 1 }

/-- The expected state after activating the edge-definition row in `cB7`. -/
def cB7' : DatabaseBrowser :=
  { cB7 with
    navigation_stack := [(.graphList "d", 1)],
    collections := sortCollections knowsColls,
    selected_coll_index := 3,
    scroll_offset := 0,
    view := .collectionList "d" }

/-- A graph whose edge definition has an empty `from` list. -/
def graphEmptyFrom : GraphInfo := mkGraph "g" [mkEdgeDef "e" [] []]

/-- Graph view with the cursor on the edge-definition row whose `from` list
is empty. -/
def cB10 : DatabaseBrowser :=
  { DatabaseBrowser.new with
    view := .graphList "d",
    database_stats := [mkDb "d"],
    graphs := [graphEmptyFrom],
    selected_graph_index := 1 }

/-- Browser used for C1/C4 witnesses: graph view over scenario-B graphs with
the cursor on row 1. -/
def cB1 : DatabaseBrowser :=
  { DatabaseBrowser.new with
    view := .graphList "d",
    database_stats := [mkDb "d"],
    graphs := [sampleG1, sampleG2],
    selected_graph_index := 1 }

/-- Oracle for the reachability chain of C9, first phase. -/
def oracle9a : FetchOracle :=
  okOracle [mkDb "d"] [mkColl "c0" false 2] [sampleG1, sampleG2]

/-- Oracle for the reachability chain of C9, second phase: the re-fetched
graph list shrank to a single graph with no edge definitions. -/
def oracle9b : FetchOracle :=
  okOracle [mkDb "d"] [mkColl "c0" false 2] [mkGraph "solo" []]

/-- C9 chain, state 0: the loop entry after loading the database list. -/
def b9_0 : DatabaseBrowser :=
  { DatabaseBrowser.new with database_stats := [mkDb "d"] }

/-- C9 chain, state 1: after activating database `d`. -/
def b9_1 : DatabaseBrowser :=
  { b9_0 with
    collections := [mkColl "c0" false 2],
    view := .collectionList "d" }

/-- C9 chain, state 2: after opening the graph list. -/
def b9_2 : DatabaseBrowser :=
  { b9_1 with
    graphs := [sampleG1, sampleG2],
    view := .graphList "d" }

/-- C9 chain, state 3: cursor moved down once (edge row `e1`). -/
def b9_3 : DatabaseBrowser := { b9_2 with selected_graph_index := 1 }

/-- C9 chain, state 4: cursor moved down again (edge row `e2`). -/
def b9_4 : DatabaseBrowser := { b9_2 with selected_graph_index := 2 }

/-- C9 chain, state 5: after activating the edge row, which pushed the graph
view onto the stack and jumped to the collection list. -/
def b9_5 : DatabaseBrowser :=
  { b9_4 with
    navigation_stack := [(.graphList "d", 2)],
    collections := [mkColl "c0" false 2],
    selected_coll_index := 0,
    view := .collectionList "d" }

/-- C9 chain, state 6: after back-navigation with a shrunken re-fetched graph
list; the restored cursor 2 exceeds the single flattened row. -/
def b9_6 : DatabaseBrowser :=
  { b9_5 with
    navigation_stack := [],
    graphs := [mkGraph "solo" []],
    selected_graph_index := 2,
    view := .graphList "d" }

/-- A server whose top-level database listing fails. -/
def oracleDbFail : FetchOracle := { oracleFailColls with databases := .error () }

/-- `cB6` with a graph-view entry on the navigation stack. -/
def cB8s : DatabaseBrowser :=
  { cB6 with navigation_stack := [(.graphList "d", 2)] }

/-! Lemmas about the stable comparator sort of `load_collections`. -/

theorem charListCmp_self : ∀ as, charListCmp as as = .eq := by
  intro as
  induction as with
  | nil => rfl
  | cons a as ih => simp [charListCmp, ih]

theorem charListCmp_eq_iff : ∀ as bs, charListCmp as bs = .eq ↔ as = bs := by
  intro as
  induction as with
  | nil => intro bs; cases bs <;> simp [charListCmp]
  | cons a as ih =>
      intro bs
      cases bs with
      | nil => simp [charListCmp]
      | cons b bs =>
          simp only [charListCmp, List.cons.injEq]
          by_cases hab : a.toNat < b.toNat
          · rw [if_pos hab]
            constructor
            · intro h; exact absurd h (by decide)
            · rintro ⟨rfl, -⟩; exact absurd hab (by omega)
          · by_cases hba : b.toNat < a.toNat
            · rw [if_neg hab, if_pos hba]
              constructor
              · intro h; exact absurd h (by decide)
              · rintro ⟨rfl, -⟩; exact absurd hba (by omega)
            · have hv : a = b := Char.ext (UInt32.ext
                (by simp only [Char.toNat] at hab hba; omega))
              rw [if_neg hab, if_neg hba, ih bs]
              simp [hv]

theorem charListCmp_swap : ∀ as bs,
    charListCmp bs as = (charListCmp as bs).swap := by
  intro as
  induction as with
  | nil => intro bs; cases bs <;> rfl
  | cons a as ih =>
      intro bs
      cases bs with
      | nil => rfl
      | cons b bs =>
          by_cases hab : a.toNat < b.toNat
          · have hba : ¬ b.toNat < a.toNat := by omega
            simp [charListCmp, hab, hba, Ordering.swap]
          · by_cases hba : b.toNat < a.toNat
            · simp [charListCmp, hab, hba, Ordering.swap]
            · simp [charListCmp, hab, hba, ih bs]

theorem charListCmp_lt_trans : ∀ as bs cs,
    charListCmp as bs = .lt → charListCmp bs cs = .lt →
    charListCmp as cs = .lt := by
  intro as
  induction as with
  | nil =>
      intro bs cs h1 h2
      cases bs with
      | nil => exact absurd h1 (by simp [charListCmp])
      | cons b bs =>
          cases cs with
          | nil => exact absurd h2 (by simp [charListCmp])
          | cons c cs => simp [charListCmp]
  | cons a as ih =>
      intro bs cs h1 h2
      cases bs with
      | nil => exact absurd h1 (by simp [charListCmp])
      | cons b bs =>
          cases cs with
          | nil => exact absurd h2 (by simp [charListCmp])
          | cons c cs =>
              simp only [charListCmp] at h1 h2 ⊢
              rcases Nat.lt_trichotomy a.toNat b.toNat with hab | hab | hab
              · rcases Nat.lt_trichotomy b.toNat c.toNat with hbc | hbc | hbc
                · rw [if_pos (by omega)]
                · rw [if_pos (by omega)]
                · rw [if_neg (by omega), if_pos hbc] at h2
                  exact absurd h2 (by decide)
              · rw [if_neg (by omega), if_neg (by omega)] at h1
                rcases Nat.lt_trichotomy b.toNat c.toNat with hbc | hbc | hbc
                · rw [if_pos (by omega)]
                · rw [if_neg (by omega), if_neg (by omega)] at h2 ⊢
                  exact ih bs cs h1 h2
                · rw [if_neg (by omega), if_pos hbc] at h2
                  exact absurd h2 (by decide)
              · rw [if_neg (by omega), if_pos hab] at h1
                exact absurd h1 (by decide)

theorem charLt_iff (a b : Char) : a < b ↔ a.toNat < b.toNat := by
  rw [Char.lt_iff_val_lt_val]; exact Iff.rfl

theorem charListCmp_gt_iff : ∀ as bs : List Char,
    charListCmp as bs = .gt ↔ List.lt bs as := by
  intro as
  induction as with
  | nil =>
      intro bs
      cases bs with
      | nil =>
          simp only [charListCmp]
          constructor
          · intro h; exact absurd h (by decide)
          · intro h; cases h
      | cons b bs =>
          simp only [charListCmp]
          constructor
          · intro h; exact absurd h (by decide)
          · intro h; cases h
  | cons a as ih =>
      intro bs
      cases bs with
      | nil =>
          simp only [charListCmp]
          constructor
          · intro _; exact List.lt.nil a as
          · intro _; trivial
      | cons b bs =>
          simp only [charListCmp]
          rcases Nat.lt_trichotomy a.toNat b.toNat with hab | hab | hab
          · rw [if_pos hab]
            constructor
            · intro h; exact absurd h (by decide)
            · intro h
              cases h with
              | head _ _ hba => exact absurd ((charLt_iff b a).mp hba) (by omega)
              | tail hba hab2 _ => exact absurd ((charLt_iff a b).mpr hab) hab2
          · rw [if_neg (by omega), if_neg (by omega)]
            rw [ih bs]
            constructor
            · intro h
              exact List.lt.tail (fun hc => absurd ((charLt_iff b a).mp hc) (by omega))
                (fun hc => absurd ((charLt_iff a b).mp hc) (by omega)) h
            · intro h
              cases h with
              | head _ _ hba => exact absurd ((charLt_iff b a).mp hba) (by omega)
              | tail _ _ htl => exact htl
          · rw [if_neg (by omega), if_pos hab]
            constructor
            · intro _; exact List.lt.head bs as ((charLt_iff b a).mpr hab)
            · intro _; rfl

/-- The comparator result `≠ Greater` coincides with the library order on
strings: the sort really is alphabetically ascending. -/
theorem strCmp_ne_gt_iff (a b : String) : strCmp a b ≠ .gt ↔ a ≤ b := by
  rw [String.le_iff_toList_le, ← not_lt]
  have h2 : List.lt b.data a.data ↔ b.toList < a.toList :=
    (List.lt_iff_lex_lt _ _).trans Iff.rfl
  exact not_congr ((charListCmp_gt_iff a.data b.data).trans h2)

theorem strCmp_swap (a b : String) : strCmp b a = (strCmp a b).swap := by
  exact charListCmp_swap a.data b.data

theorem ordering_ne_gt_iff (o : Ordering) : o ≠ .gt ↔ o = .lt ∨ o = .eq := by
  cases o <;> simp

theorem strCmp_le_trans {a b c : String} (h1 : strCmp a b ≠ .gt)
    (h2 : strCmp b c ≠ .gt) : strCmp a c ≠ .gt := by
  rcases (ordering_ne_gt_iff _).mp h1 with h1 | h1
  · rcases (ordering_ne_gt_iff _).mp h2 with h2 | h2
    · have := charListCmp_lt_trans a.data b.data c.data h1 h2
      simp [strCmp, this]
    · have hdata : b.data = c.data := (charListCmp_eq_iff _ _).mp h2
      simp only [strCmp] at h1 ⊢
      rw [← hdata, h1]
      decide
  · have hdata : a.data = b.data := (charListCmp_eq_iff _ _).mp h1
    simp only [strCmp] at h2 ⊢
    rw [hdata]
    exact h2

theorem collCmp_swap (a b : CollectionWithCount) :
    collCmp b a = (collCmp a b).swap := by
  unfold collCmp
  cases ha : a.info.is_system <;> cases hb : b.info.is_system
  · exact strCmp_swap a.info.name b.info.name
  · rfl
  · rfl
  · exact strCmp_swap a.info.name b.info.name

theorem collCmp_le_trans (a b c : CollectionWithCount)
    (h1 : collCmp a b ≠ .gt) (h2 : collCmp b c ≠ .gt) : collCmp a c ≠ .gt := by
  unfold collCmp at h1 h2 ⊢
  cases ha : a.info.is_system <;> cases hb : b.info.is_system <;>
      cases hc : c.info.is_system <;> rw [ha, hb] at h1 <;>
      rw [hb, hc] at h2
  · exact strCmp_le_trans h1 h2
  · exact (by decide : Ordering.lt ≠ Ordering.gt)
  · exact absurd rfl h2
  · exact (by decide : Ordering.lt ≠ Ordering.gt)
  · exact absurd rfl h1
  · exact absurd rfl h1
  · exact absurd rfl h2
  · exact strCmp_le_trans h1 h2

theorem insertOrdered_perm (cmp : α → α → Ordering) (x : α) :
    ∀ l : List α, (insertOrdered cmp x l).Perm (x :: l) := by
  intro l
  induction l with
  | nil => exact List.Perm.refl _
  | cons y ys ih =>
      rw [insertOrdered]
      by_cases h : cmp x y = .lt
      · rw [if_pos h]
      · rw [if_neg h]
        exact (ih.cons y).trans (List.Perm.swap x y ys)

theorem foldl_insert_perm (cmp : α → α → Ordering) :
    ∀ (l acc : List α),
      (List.foldl (fun acc x => insertOrdered cmp x acc) acc l).Perm (acc ++ l) := by
  intro l
  induction l with
  | nil => intro acc; simp
  | cons x xs ih =>
      intro acc
      simp only [List.foldl_cons]
      refine (ih (insertOrdered cmp x acc)).trans ?_
      refine (List.Perm.append_right xs (insertOrdered_perm cmp x acc)).trans ?_
      exact List.perm_middle.symm

theorem sortByCmp_perm (cmp : α → α → Ordering) (l : List α) :
    (sortByCmp cmp l).Perm l := by
  simpa using foldl_insert_perm cmp l []

theorem insertOrdered_pairwise (cmp : α → α → Ordering)
    (hswap : ∀ a b, cmp b a = (cmp a b).swap)
    (htrans : ∀ a b c, cmp a b ≠ .gt → cmp b c ≠ .gt → cmp a c ≠ .gt)
    (x : α) :
    ∀ l : List α, l.Pairwise (fun a b => cmp a b ≠ .gt) →
      (insertOrdered cmp x l).Pairwise (fun a b => cmp a b ≠ .gt) := by
  intro l
  induction l with
  | nil => intro _; simp [insertOrdered]
  | cons y ys ih =>
      intro hl
      rw [List.pairwise_cons] at hl
      obtain ⟨hy, hys⟩ := hl
      rw [insertOrdered]
      by_cases h : cmp x y = .lt
      · rw [if_pos h]
        refine List.Pairwise.cons ?_ (List.Pairwise.cons hy hys)
        intro z hz
        rcases List.mem_cons.mp hz with rfl | hz
        · simp [h]
        · exact htrans x y z (by simp [h]) (hy z hz)
      · rw [if_neg h]
        refine List.Pairwise.cons ?_ (ih hys)
        intro z hz
        have hz' := ((insertOrdered_perm cmp x ys).mem_iff).mp hz
        rcases List.mem_cons.mp hz' with hzx | hz'
        · rw [hzx, hswap x y]
          cases hc : cmp x y with
          | lt => exact absurd hc h
          | eq => decide
          | gt => decide
        · exact hy z hz'

theorem sortByCmp_pairwise (cmp : α → α → Ordering)
    (hswap : ∀ a b, cmp b a = (cmp a b).swap)
    (htrans : ∀ a b c, cmp a b ≠ .gt → cmp b c ≠ .gt → cmp a c ≠ .gt)
    (l : List α) :
    (sortByCmp cmp l).Pairwise (fun a b => cmp a b ≠ .gt) := by
  have aux : ∀ (l acc : List α),
      acc.Pairwise (fun a b => cmp a b ≠ .gt) →
      (List.foldl (fun acc x => insertOrdered cmp x acc) acc l).Pairwise
        (fun a b => cmp a b ≠ .gt) := by
    intro l
    induction l with
    | nil => intro acc h; simpa using h
    | cons x xs ih =>
        intro acc h
        simp only [List.foldl_cons]
        exact ih _ (insertOrdered_pairwise cmp hswap htrans x acc h)
  exact aux l [] (by simp)

/-- The stored collection order after `load_collections`: it is a permutation
of the fetched list, pairwise ordered by the comparator. -/
theorem sortCollections_spec (l : List CollectionWithCount) :
    (sortCollections l).Perm l ∧
    (sortCollections l).Pairwise (fun a b => collCmp a b ≠ .gt) :=
  ⟨sortByCmp_perm collCmp l,
   sortByCmp_pairwise collCmp collCmp_swap collCmp_le_trans l⟩

/-! Lemmas relating `find_selected_graph_item` to the flattened row listing. -/

theorem resolveRows_cons_zero (x : GraphRow) (l : List GraphRow) :
    resolveRows (x :: l) 0 = rowItem x := rfl

theorem resolveRows_cons_succ (x : GraphRow) (l : List GraphRow) (k : Nat) :
    resolveRows (x :: l) (k + 1) = resolveRows l k := rfl

theorem resolveRows_append_left (l1 l2 : List GraphRow) (k : Nat)
    (h : k < l1.length) : resolveRows (l1 ++ l2) k = resolveRows l1 k := by
  unfold resolveRows
  rw [List.get?_append h]

theorem resolveRows_append_right (l1 l2 : List GraphRow) (k : Nat)
    (h : l1.length ≤ k) :
    resolveRows (l1 ++ l2) k = resolveRows l2 (k - l1.length) := by
  unfold resolveRows
  rw [List.get?_append_right h]

theorem resolveRows_nil (k : Nat) : resolveRows [] k = none := by
  unfold resolveRows
  simp

theorem graphRowsOf_length (gi : Nat) (g : GraphInfo) :
    (graphRowsOf gi g).length = 1 + g.edge_definitions.length := by
  simp [graphRowsOf]
  omega

theorem flattenAux_cons (gi : Nat) (g : GraphInfo) (rest : List GraphInfo) :
    flattenAux gi (g :: rest) =
      graphRowsOf gi g ++
        (if rest.isEmpty then [] else GraphRow.spacer :: flattenAux (gi + 1) rest) := by
  cases rest <;> simp [flattenAux]

theorem fsgiEdges_not_found (target : Nat) :
    ∀ (edges : List EdgeDefinition) (r i : Nat),
      (target < r ∨ r + edges.length ≤ target) →
      fsgiEdges target edges r i = (none, r + edges.length) := by
  intro edges
  induction edges with
  | nil => intro r i _; simp [fsgiEdges]
  | cons e es ih =>
      intro r i hcond
      simp only [List.length_cons] at hcond
      rw [fsgiEdges, if_neg (by omega)]
      rw [ih (r + 1) (i + 1) (by omega)]
      simp only [List.length_cons, Prod.mk.injEq, true_and]
      omega

theorem fsgiEdges_found (target : Nat) :
    ∀ (edges : List EdgeDefinition) (r i : Nat),
      r ≤ target → target < r + edges.length →
      fsgiEdges target edges r i = (some (i + (target - r)), target) := by
  intro edges
  induction edges with
  | nil => intro r i h1 h2; exfalso; simp only [List.length_nil] at h2; omega
  | cons e es ih =>
      intro r i h1 h2
      by_cases h0 : r = target
      · rw [fsgiEdges, if_pos h0, h0]
        simp [h0]
      · rw [fsgiEdges, if_neg h0]
        rw [ih (r + 1) (i + 1) (by omega)
            (by simp only [List.length_cons] at h2; omega)]
        have : i + 1 + (target - (r + 1)) = i + (target - r) := by omega
        rw [this]

theorem fsgiGraphs_lt_none (target total : Nat) :
    ∀ (gs : List GraphInfo) (gi r : Nat), target < r →
      fsgiGraphs target total gs gi r = none := by
  intro gs
  induction gs with
  | nil => intro gi r _; rfl
  | cons g rest ih =>
      intro gi r hlt
      rw [fsgiGraphs, if_neg (by omega)]
      rw [fsgiEdges_not_found target _ (r + 1) 0 (Or.inl (by omega))]
      exact ih (gi + 1) _ (by split <;> omega)

theorem graphRowsOf_resolve_zero (gi : Nat) (g : GraphInfo) :
    resolveRows (graphRowsOf gi g) 0 = some (gi, none) := rfl

theorem graphRowsOf_resolve_succ (gi : Nat) (g : GraphInfo) (j : Nat)
    (hj : j < g.edge_definitions.length) :
    resolveRows (graphRowsOf gi g) (j + 1) = some (gi, some j) := by
  unfold graphRowsOf resolveRows
  rw [List.get?_cons_succ, List.get?_map, List.get?_range hj]
  rfl

theorem flattenAux_single (gi : Nat) (g : GraphInfo) :
    flattenAux gi [g] = graphRowsOf gi g := rfl

theorem flattenAux_cons₂ (gi : Nat) (g g2 : GraphInfo) (rest2 : List GraphInfo) :
    flattenAux gi (g :: g2 :: rest2) =
      graphRowsOf gi g ++ GraphRow.spacer :: flattenAux (gi + 1) (g2 :: rest2) := rfl

theorem flattenAux_resolve_low (gi : Nat) (g : GraphInfo)
    (rest : List GraphInfo) (k : Nat) (hk : k < 1 + g.edge_definitions.length) :
    resolveRows (flattenAux gi (g :: rest)) k =
      resolveRows (graphRowsOf gi g) k := by
  cases rest with
  | nil => rfl
  | cons g2 rest2 =>
      rw [flattenAux_cons₂]
      exact resolveRows_append_left _ _ k (by rw [graphRowsOf_length]; omega)

/-- The core correspondence: the selection-resolution loop of
`find_selected_graph_item` agrees with the row listing that
`render_graph_list` draws, at every cursor position at or beyond the current
row counter. -/
theorem fsgiGraphs_eq_resolve (target : Nat) :
    ∀ (gs : List GraphInfo) (gi r total : Nat),
      r ≤ target → gi + gs.length = total →
      fsgiGraphs target total gs gi r =
        resolveRows (flattenAux gi gs) (target - r) := by
  intro gs
  induction gs with
  | nil => intro gi r total _ _; rfl
  | cons g rest ih =>
      intro gi r total hr htotal
      simp only [List.length_cons] at htotal
      by_cases h0 : r = target
      · rw [fsgiGraphs, if_pos h0, h0, Nat.sub_self]
        rw [flattenAux_resolve_low gi g rest 0 (by omega)]
        rw [graphRowsOf_resolve_zero]
      · have hrt : r < target := Nat.lt_of_le_of_ne hr h0
        rw [fsgiGraphs, if_neg h0]
        by_cases hE : target < r + 1 + g.edge_definitions.length
        · rw [fsgiEdges_found target _ (r + 1) 0 (by omega) (by omega)]
          rw [flattenAux_resolve_low gi g rest (target - r) (by omega)]
          have hk : target - r = (target - r - 1) + 1 := by omega
          rw [hk, graphRowsOf_resolve_succ gi g (target - r - 1) (by omega)]
          have h2 : (0 : Nat) + (target - (r + 1)) = target - r - 1 := by omega
          rw [h2]
        · rw [fsgiEdges_not_found target _ (r + 1) 0 (Or.inr (by omega))]
          cases rest with
          | nil =>
              have hres :
                  resolveRows (flattenAux gi [g]) (target - r) = none := by
                rw [flattenAux_single]
                unfold resolveRows
                rw [List.get?_eq_none.mpr (by rw [graphRowsOf_length]; omega)]
              rw [hres]
              rfl
          | cons g2 rest2 =>
              have hgi : gi < total - 1 := by
                simp only [List.length_cons] at htotal; omega
              show fsgiGraphs target total (g2 :: rest2) (gi + 1)
                  (if gi < total - 1 then r + 1 + g.edge_definitions.length + 1
                   else r + 1 + g.edge_definitions.length) = _
              rw [if_pos hgi]
              by_cases hsp : target = r + 1 + g.edge_definitions.length
              · rw [fsgiGraphs_lt_none target total _ (gi + 1) _ (by omega)]
                rw [flattenAux_cons₂]
                rw [resolveRows_append_right _ _ (target - r)
                    (by rw [graphRowsOf_length]; omega)]
                rw [graphRowsOf_length]
                have hidx : target - r - (1 + g.edge_definitions.length) = 0 := by
                  omega
                rw [hidx, resolveRows_cons_zero]
                rfl
              · have htg : r + 1 + g.edge_definitions.length + 1 ≤ target := by
                  omega
                rw [ih (gi + 1) (r + 1 + g.edge_definitions.length + 1) total htg
                    (by simp only [List.length_cons] at htotal ⊢; omega)]
                rw [flattenAux_cons₂]
                rw [resolveRows_append_right _ _ (target - r)
                    (by rw [graphRowsOf_length]; omega)]
                rw [graphRowsOf_length]
                have hk : target - r - (1 + g.edge_definitions.length) =
                    (target - (r + 1 + g.edge_definitions.length + 1)) + 1 := by
                  omega
                rw [hk, resolveRows_cons_succ]

theorem foldl_rows_acc :
    ∀ (gs : List GraphInfo) (n : Nat),
      gs.foldl (fun acc g => acc + 1 + g.edge_definitions.length) n =
        n + (gs.map (fun g => 1 + g.edge_definitions.length)).sum := by
  intro gs
  induction gs with
  | nil => intro n; simp
  | cons g rest ih =>
      intro n
      simp only [List.foldl_cons, List.map_cons, List.sum_cons]
      rw [ih]
      omega

/-- `total_rows` equals the sum `Σ (1 + E_i)` plus one spacer between
consecutive graphs. -/
theorem total_rows_eq (gs : List GraphInfo) :
    total_rows gs =
      (gs.map (fun g => 1 + g.edge_definitions.length)).sum + (gs.length - 1) := by
  unfold total_rows
  rw [foldl_rows_acc]
  omega

theorem total_rows_pos (gs : List GraphInfo) (h : gs ≠ []) :
    0 < total_rows gs := by
  cases gs with
  | nil => exact absurd rfl h
  | cons g rest =>
      rw [total_rows_eq]
      simp only [List.map_cons, List.sum_cons]
      omega

theorem flattenAux_length :
    ∀ (gs : List GraphInfo) (gi : Nat),
      (flattenAux gi gs).length =
        (gs.map (fun g => 1 + g.edge_definitions.length)).sum +
          (gs.length - 1) := by
  intro gs
  induction gs with
  | nil => intro gi; simp [flattenAux]
  | cons g rest ih =>
      intro gi
      cases rest with
      | nil =>
          rw [flattenAux_single, graphRowsOf_length]
          simp
      | cons g2 rest2 =>
          rw [flattenAux_cons₂]
          simp only [List.length_append, List.length_cons, graphRowsOf_length,
            ih (gi + 1), List.map_cons, List.sum_cons]
          omega

/-- The full flattened listing has exactly `total_rows` rows. -/
theorem flattenRows_length (gs : List GraphInfo) :
    (flattenRows gs).length = total_rows gs := by
  rw [flattenRows, flattenAux_length, total_rows_eq]

theorem graphRowsOf_wf (full : List GraphInfo) (gi : Nat) (g : GraphInfo)
    (hlen : gi < full.length) (hget : full.getD gi dummyGraph = g) :
    ∀ row ∈ graphRowsOf gi g, rowWF full row := by
  intro row hrow
  rcases List.mem_cons.mp hrow with hrow | hrow
  · rw [hrow]; exact hlen
  · rcases List.mem_map.mp hrow with ⟨j, hj, hrow⟩
    rw [← hrow]
    exact ⟨hlen, by rw [hget]; exact List.mem_range.mp hj⟩

theorem flattenAux_wf :
    ∀ (gs full : List GraphInfo) (gi : Nat),
      (∀ j, j < gs.length →
        (gi + j < full.length ∧
          full.getD (gi + j) dummyGraph = gs.getD j dummyGraph)) →
      ∀ row ∈ flattenAux gi gs, rowWF full row := by
  intro gs
  induction gs with
  | nil => intro full gi _ row hrow; simp [flattenAux] at hrow
  | cons g rest ih =>
      intro full gi h row hrow
      have h0 := h 0 (by simp)
      rw [Nat.add_zero] at h0
      have hrest : ∀ j, j < rest.length →
          ((gi + 1) + j < full.length ∧
            full.getD ((gi + 1) + j) dummyGraph = rest.getD j dummyGraph) := by
        intro j hj
        have := h (j + 1) (by simp; omega)
        constructor
        · omega
        · have harr : gi + (j + 1) = (gi + 1) + j := by omega
          rw [harr] at this
          exact this.2.trans (by simp)
      cases rest with
      | nil =>
          rw [flattenAux_single] at hrow
          exact graphRowsOf_wf full gi g h0.1 (by simpa using h0.2) row hrow
      | cons g2 rest2 =>
          rw [flattenAux_cons₂] at hrow
          rcases List.mem_append.mp hrow with hrow | hrow
          · exact graphRowsOf_wf full gi g h0.1 (by simpa using h0.2) row hrow
          · rcases List.mem_cons.mp hrow with hrow | hrow
            · rw [hrow]; trivial
            · exact ih full (gi + 1) hrest row hrow

/-- Every row of the flattened listing is well formed. -/
theorem flattenRows_wf (graphs : List GraphInfo) :
    ∀ row ∈ flattenRows graphs, rowWF graphs row := by
  refine flattenAux_wf graphs graphs 0 ?_
  intro j hj
  rw [Nat.zero_add]
  exact ⟨hj, rfl⟩

/-- `find_selected_graph_item` is exactly row resolution against the
renderer's flattened listing. -/
theorem find_selected_eq_resolve (b : DatabaseBrowser) :
    find_selected_graph_item b =
      resolveRows (flattenRows b.graphs) b.selected_graph_index := by
  unfold find_selected_graph_item flattenRows
  have h := fsgiGraphs_eq_resolve b.selected_graph_index b.graphs 0 0
    b.graphs.length (Nat.zero_le _) (by omega)
  simpa using h

theorem step_dispatch_modal (oracle : FetchOracle) (b : DatabaseBrowser)
    (input : String) (key : KeyCode)
    (h : b.input_state = .enteringDocumentCount input) :
    step oracle b key = stepModal oracle b input key := by
  simp only [step, h]

theorem step_dispatch_db (oracle : FetchOracle) (b : DatabaseBrowser)
    (key : KeyCode) (h1 : b.input_state = .noInput)
    (h2 : b.view = .databaseList) :
    step oracle b key = stepDatabaseList oracle b key := by
  simp only [step, h1, h2]

theorem step_dispatch_coll (oracle : FetchOracle) (b : DatabaseBrowser)
    (db : String) (key : KeyCode) (h1 : b.input_state = .noInput)
    (h2 : b.view = .collectionList db) :
    step oracle b key = stepCollectionList oracle b db key := by
  simp only [step, h1, h2]

theorem step_dispatch_graph (oracle : FetchOracle) (b : DatabaseBrowser)
    (db : String) (key : KeyCode) (h1 : b.input_state = .noInput)
    (h2 : b.view = .graphList db) :
    step oracle b key = stepGraphList oracle b db key := by
  simp only [step, h1, h2]

theorem step_dispatch_collprops (oracle : FetchOracle) (b : DatabaseBrowser)
    (db coll : String) (key : KeyCode) (h1 : b.input_state = .noInput)
    (h2 : b.view = .collectionProperties db coll) :
    step oracle b key = stepCollectionProperties b db key := by
  simp only [step, h1, h2]

theorem step_dispatch_docs (oracle : FetchOracle) (b : DatabaseBrowser)
    (db coll : String) (key : KeyCode) (h1 : b.input_state = .noInput)
    (h2 : b.view = .documentViewer db coll) :
    step oracle b key = stepDocumentViewer b db key := by
  simp only [step, h1, h2]

theorem step_dispatch_graphprops (oracle : FetchOracle) (b : DatabaseBrowser)
    (db graph : String) (key : KeyCode) (h1 : b.input_state = .noInput)
    (h2 : b.view = .graphProperties db graph) :
    step oracle b key = stepGraphProperties b db key := by
  simp only [step, h1, h2]

theorem zero_lt_or_nil (l : List α) : 0 < l.length ∨ l = [] := by
  cases l <;> simp

theorem stepDatabaseList_inv (oracle : FetchOracle) (b b' : DatabaseBrowser)
    (key : KeyCode) (hInv : SelInv b)
    (h : (stepDatabaseList oracle b key).1 = .next b') : SelInv b' := by
  obtain ⟨hdb, hcoll⟩ := hInv
  unfold stepDatabaseList load_collections at h
  repeat' split at h
  all_goals simp at h
  all_goals (repeat' split at h)
  all_goals (try (simp at h))
  all_goals (try subst h)
  all_goals
    first
      | exact ⟨hdb, hcoll⟩
      | exact ⟨Or.inl (Nat.mod_lt _ (List.length_pos.mpr
          ‹b.database_stats ≠ []›)), hcoll⟩
      | exact ⟨Or.inl (Nat.sub_lt (List.length_pos.mpr
          ‹b.database_stats ≠ []›) Nat.one_pos), hcoll⟩
      | exact ⟨by
          rcases hdb with h1 | h1
          · exact Or.inl (Nat.lt_of_le_of_lt (Nat.sub_le _ _) h1)
          · exact Or.inr h1, hcoll⟩
      | exact ⟨hdb, fun _ => zero_lt_or_nil _⟩
      | (rename_i b2 heq
         split at heq
         · simp at heq
         · simp only [Except.ok.injEq] at heq
           subst heq
           exact ⟨hdb, fun _ => zero_lt_or_nil _⟩)

theorem findIdx?_lt_length_aux {p : α → Bool} :
    ∀ (l : List α) (s i : Nat), List.findIdx? p l s = some i →
      i < s + l.length := by
  intro l
  induction l with
  | nil => intro s i h; simp [List.findIdx?] at h
  | cons x xs ih =>
      intro s i h
      rw [List.findIdx?_cons] at h
      by_cases hp : p x
      · simp only [hp, if_pos, Option.some.injEq] at h
        simp only [List.length_cons]
        omega
      · simp only [hp, Bool.false_eq_true, if_false] at h
        have := ih (s + 1) i h
        simp only [List.length_cons]
        omega

theorem findIdx?_lt_length {p : α → Bool} {l : List α} {i : Nat}
    (h : l.findIdx? p = some i) : i < l.length := by
  have := findIdx?_lt_length_aux l 0 i h
  omega

theorem stepCollectionList_inv (oracle : FetchOracle) (b b' : DatabaseBrowser)
    (db : String) (key : KeyCode) (hInv : SelInv b)
    (hview : b.view = .collectionList db)
    (h : (stepCollectionList oracle b db key).1 = .next b') : SelInv b' := by
  obtain ⟨hdb, hcoll⟩ := hInv
  have hcl : collIndexOk b := hcoll (by rw [hview]; simp)
  unfold stepCollectionList load_graphs load_collection_details at h
  repeat' split at h
  all_goals simp at h
  all_goals (repeat' split at h)
  all_goals (try (simp at h))
  all_goals (try subst h)
  all_goals
    first
      | exact ⟨hdb, hcoll⟩
      | exact ⟨hdb, fun hv => absurd rfl hv⟩
      | exact ⟨hdb, fun _ => hcl⟩
      | exact ⟨hdb, fun _ => Or.inl (Nat.mod_lt _ (List.length_pos.mpr
          ‹b.collections ≠ []›))⟩
      | exact ⟨hdb, fun _ => Or.inl (Nat.sub_lt (List.length_pos.mpr
          ‹b.collections ≠ []›) Nat.one_pos)⟩
      | exact ⟨hdb, fun _ => by
          rcases hcl with h1 | h1
          · exact Or.inl (Nat.lt_of_le_of_lt (Nat.sub_le _ _) h1)
          · exact Or.inr h1⟩
      | (rename_i b2 heq
         first
           | simp at heq
           | (simp only [Except.ok.injEq] at heq
              subst heq
              first
                | exact ⟨hdb, fun _ => hcl⟩
                | exact ⟨hdb, fun _ => zero_lt_or_nil _⟩)
           | (split at heq
              · simp at heq
              · simp only [Except.ok.injEq] at heq
                subst heq
                first
                  | exact ⟨hdb, fun _ => hcl⟩
                  | exact ⟨hdb, fun _ => zero_lt_or_nil _⟩))

theorem stepGraphList_inv (oracle : FetchOracle) (b b' : DatabaseBrowser)
    (db : String) (key : KeyCode) (hInv : SelInv b)
    (hview : b.view = .graphList db)
    (h : (stepGraphList oracle b db key).1 = .next b') : SelInv b' := by
  obtain ⟨hdb, hcoll⟩ := hInv
  have hcl : collIndexOk b := hcoll (by rw [hview]; simp)
  unfold stepGraphList load_collections load_graph_details at h
  repeat' split at h
  all_goals simp at h
  all_goals (repeat' split at h)
  all_goals (try (simp at h))
  all_goals (try subst h)
  all_goals
    first
      | exact ⟨hdb, hcoll⟩
      | exact ⟨hdb, fun hv => absurd rfl hv⟩
      | exact ⟨hdb, fun _ => hcl⟩
      | exact ⟨hdb, fun _ => zero_lt_or_nil _⟩
      | (rename_i heqpos
         exact ⟨hdb, fun _ => Or.inl (findIdx?_lt_length heqpos)⟩)
      | (simp_all)

theorem stepModal_inv (oracle : FetchOracle) (b b' : DatabaseBrowser)
    (input : String) (key : KeyCode) (hInv : SelInv b)
    (h : (stepModal oracle b input key).1 = .next b') : SelInv b' := by
  obtain ⟨hdb, hcoll⟩ := hInv
  unfold stepModal load_documents at h
  repeat' split at h
  all_goals simp at h
  all_goals (repeat' split at h)
  all_goals (try (simp at h))
  all_goals (try subst h)
  all_goals
    first
      | exact ⟨hdb, hcoll⟩
      | exact ⟨hdb, fun _ => hcoll (by simp_all)⟩
      | (rename_i b2 heq
         first
           | simp at heq
           | (simp only [Except.ok.injEq] at heq
              subst heq
              exact ⟨hdb, fun _ => hcoll (by simp_all)⟩)
           | (split at heq
              · simp at heq
              · simp only [Except.ok.injEq] at heq
                subst heq
                exact ⟨hdb, fun _ => hcoll (by simp_all)⟩))

theorem stepCollectionProperties_inv (b b' : DatabaseBrowser)
    (db coll : String) (key : KeyCode) (hInv : SelInv b)
    (hview : b.view = .collectionProperties db coll)
    (h : (stepCollectionProperties b db key).1 = .next b') : SelInv b' := by
  obtain ⟨hdb, hcoll⟩ := hInv
  have hcl : collIndexOk b := hcoll (by rw [hview]; simp)
  unfold stepCollectionProperties at h
  repeat' split at h
  all_goals simp at h
  all_goals (try subst h)
  all_goals
    first
      | exact ⟨hdb, hcoll⟩
      | exact ⟨hdb, fun _ => hcl⟩

theorem stepDocumentViewer_inv (b b' : DatabaseBrowser)
    (db coll : String) (key : KeyCode) (hInv : SelInv b)
    (hview : b.view = .documentViewer db coll)
    (h : (stepDocumentViewer b db key).1 = .next b') : SelInv b' := by
  obtain ⟨hdb, hcoll⟩ := hInv
  have hcl : collIndexOk b := hcoll (by rw [hview]; simp)
  unfold stepDocumentViewer at h
  repeat' split at h
  all_goals simp at h
  all_goals (try subst h)
  all_goals
    first
      | exact ⟨hdb, hcoll⟩
      | exact ⟨hdb, fun _ => hcl⟩

theorem stepGraphProperties_inv (b b' : DatabaseBrowser)
    (db graph : String) (key : KeyCode) (hInv : SelInv b)
    (hview : b.view = .graphProperties db graph)
    (h : (stepGraphProperties b db key).1 = .next b') : SelInv b' := by
  obtain ⟨hdb, hcoll⟩ := hInv
  have hcl : collIndexOk b := hcoll (by rw [hview]; simp)
  unfold stepGraphProperties at h
  repeat' split at h
  all_goals simp at h
  all_goals (try subst h)
  all_goals
    first
      | exact ⟨hdb, hcoll⟩
      | exact ⟨hdb, fun _ => hcl⟩

/-- One event step preserves the selection invariant. -/
theorem step_preserves_selInv (oracle : FetchOracle) (key : KeyCode)
    (b b' : DatabaseBrowser) (hInv : SelInv b)
    (h : (step oracle b key).1 = .next b') : SelInv b' := by
  rcases hin : b.input_state with _ | input
  · rcases hv : b.view with _ | db | db | ⟨db, coll⟩ | ⟨db, coll⟩ | ⟨db, graph⟩
    · rw [step_dispatch_db oracle b key hin hv] at h
      exact stepDatabaseList_inv oracle b b' key hInv h
    · rw [step_dispatch_coll oracle b db key hin hv] at h
      exact stepCollectionList_inv oracle b b' db key hInv hv h
    · rw [step_dispatch_graph oracle b db key hin hv] at h
      exact stepGraphList_inv oracle b b' db key hInv hv h
    · rw [step_dispatch_collprops oracle b db coll key hin hv] at h
      exact stepCollectionProperties_inv b b' db coll key hInv hv h
    · rw [step_dispatch_docs oracle b db coll key hin hv] at h
      exact stepDocumentViewer_inv b b' db coll key hInv hv h
    · rw [step_dispatch_graphprops oracle b db graph key hin hv] at h
      exact stepGraphProperties_inv b b' db graph key hInv hv h
  · rw [step_dispatch_modal oracle b input key hin] at h
    exact stepModal_inv oracle b b' input key hInv h

/-- The invariant holds at the loop entry, whatever the initial database
fetch returned. -/
theorem initBrowser_selInv (oracle : FetchOracle) : SelInv (initBrowser oracle) := by
  unfold initBrowser load_databases DatabaseBrowser.new
  split
  · exact ⟨zero_lt_or_nil _, fun hv => absurd rfl hv⟩
  · exact ⟨Or.inr rfl, fun hv => absurd rfl hv⟩

/-- Every reachable state satisfies the selection invariant. -/
theorem reachable_selInv (b : DatabaseBrowser) (h : Reachable b) : SelInv b := by
  induction h with
  | init oracle => exact initBrowser_selInv oracle
  | step oracle key b b' _ hstep ih => exact step_preserves_selInv oracle key b b' ih hstep

/-! Step-behaviour lemmas, one per transition rule of the event loop. -/

theorem space_opens_modal (oracle : FetchOracle) (b : DatabaseBrowser)
    (db : String) (h1 : b.input_state = .noInput)
    (h2 : b.view = .collectionList db) :
    step oracle b (.char ' ') =
      (.next { b with input_state := .enteringDocumentCount "10" }, []) := by
  rw [step_dispatch_coll oracle b db (.char ' ') h1 h2]
  simp only [stepCollectionList]

theorem modal_digit (oracle : FetchOracle) (b : DatabaseBrowser)
    (input : String) (c : Char) (h1 : b.input_state = .enteringDocumentCount input)
    (hc : c.isDigit) :
    step oracle b (.char c) =
      (.next { b with input_state := .enteringDocumentCount (input.push c) }, []) := by
  rw [step_dispatch_modal oracle b input (.char c) h1]
  simp only [stepModal]
  rw [if_pos hc]

theorem modal_nondigit (oracle : FetchOracle) (b : DatabaseBrowser)
    (input : String) (c : Char) (h1 : b.input_state = .enteringDocumentCount input)
    (hc : ¬ c.isDigit) :
    step oracle b (.char c) = (.next b, []) := by
  rw [step_dispatch_modal oracle b input (.char c) h1]
  simp only [stepModal]
  rw [if_neg hc]

theorem modal_backspace (oracle : FetchOracle) (b : DatabaseBrowser)
    (input : String) (h1 : b.input_state = .enteringDocumentCount input) :
    step oracle b .backspace =
      (.next { b with input_state := .enteringDocumentCount (input.dropRight 1) },
       []) := by
  rw [step_dispatch_modal oracle b input .backspace h1]
  simp only [stepModal]

theorem modal_esc (oracle : FetchOracle) (b : DatabaseBrowser)
    (input : String) (h1 : b.input_state = .enteringDocumentCount input) :
    step oracle b .esc = (.next { b with input_state := .noInput }, []) := by
  rw [step_dispatch_modal oracle b input .esc h1]
  simp only [stepModal]

theorem modal_inert (oracle : FetchOracle) (b : DatabaseBrowser)
    (input : String) (k : KeyCode) (h1 : b.input_state = .enteringDocumentCount input)
    (hk : k = .down ∨ k = .up ∨ k = .pageDown ∨ k = .pageUp ∨ k = .other) :
    step oracle b k = (.next b, []) := by
  rw [step_dispatch_modal oracle b input k h1]
  rcases hk with rfl | rfl | rfl | rfl | rfl <;> simp only [stepModal]

theorem modal_enter_ok (oracle : FetchOracle) (b : DatabaseBrowser)
    (input db : String) (docs : List DocValue)
    (h1 : b.input_state = .enteringDocumentCount input)
    (h2 : b.view = .collectionList db)
    (h3 : b.selected_coll_index < b.collections.length)
    (h4 : oracle.documents db
        (b.collections.getD b.selected_coll_index dummyCollection).info.name
        (parse_or_ten input) = .ok docs) :
    step oracle b .enter =
      (.next { b with input_state := .noInput, documents := docs,
                      scroll_offset := 0,
                      view := .documentViewer db
                        (b.collections.getD b.selected_coll_index
                          dummyCollection).info.name },
       [.reqDocuments db
          (b.collections.getD b.selected_coll_index dummyCollection).info.name
          (parse_or_ten input)]) := by
  rw [step_dispatch_modal oracle b input .enter h1]
  simp only [stepModal, load_documents, h2]
  rw [if_pos h3, h4]

theorem modal_enter_fail (oracle : FetchOracle) (b : DatabaseBrowser)
    (input db : String)
    (h1 : b.input_state = .enteringDocumentCount input)
    (h2 : b.view = .collectionList db)
    (h3 : b.selected_coll_index < b.collections.length)
    (h4 : oracle.documents db
        (b.collections.getD b.selected_coll_index dummyCollection).info.name
        (parse_or_ten input) = .error ()) :
    step oracle b .enter =
      (.fatal,
       [.reqDocuments db
          (b.collections.getD b.selected_coll_index dummyCollection).info.name
          (parse_or_ten input)]) := by
  rw [step_dispatch_modal oracle b input .enter h1]
  simp only [stepModal, load_documents, h2]
  rw [if_pos h3, h4]

theorem modal_enter_oob (oracle : FetchOracle) (b : DatabaseBrowser)
    (input db : String)
    (h1 : b.input_state = .enteringDocumentCount input)
    (h2 : b.view = .collectionList db)
    (h3 : ¬ b.selected_coll_index < b.collections.length) :
    step oracle b .enter = (.next { b with input_state := .noInput }, []) := by
  rw [step_dispatch_modal oracle b input .enter h1]
  simp only [stepModal, h2]
  rw [if_neg h3]

theorem modal_enter_nonlist (oracle : FetchOracle) (b : DatabaseBrowser)
    (input : String)
    (h1 : b.input_state = .enteringDocumentCount input)
    (h2 : ∀ db, b.view ≠ .collectionList db) :
    step oracle b .enter = (.next { b with input_state := .noInput }, []) := by
  rw [step_dispatch_modal oracle b input .enter h1]
  rcases hv : b.view with _ | db | db | ⟨db, coll⟩ | ⟨db, coll⟩ | ⟨db, graph⟩ <;>
    simp only [stepModal, hv]
  exact absurd hv (h2 db)

theorem db_down (oracle : FetchOracle) (b : DatabaseBrowser)
    (h1 : b.input_state = .noInput) (h2 : b.view = .databaseList)
    (h3 : b.database_stats ≠ []) :
    step oracle b .down =
      (.next { b with selected_db_index :=
        (b.selected_db_index + 1) % b.database_stats.length }, []) := by
  rw [step_dispatch_db oracle b .down h1 h2]
  simp only [stepDatabaseList]
  rw [if_pos h3]

theorem db_up (oracle : FetchOracle) (b : DatabaseBrowser)
    (h1 : b.input_state = .noInput) (h2 : b.view = .databaseList)
    (h3 : b.database_stats ≠ []) :
    step oracle b .up =
      (.next { b with selected_db_index :=
        if b.selected_db_index = 0 then b.database_stats.length - 1
        else b.selected_db_index - 1 }, []) := by
  rw [step_dispatch_db oracle b .up h1 h2]
  simp only [stepDatabaseList]
  rw [if_pos h3]

theorem db_enter_ok (oracle : FetchOracle) (b : DatabaseBrowser)
    (colls : List CollectionWithCount)
    (h1 : b.input_state = .noInput) (h2 : b.view = .databaseList)
    (h3 : b.selected_db_index < b.database_stats.length)
    (h4 : (b.database_stats.getD b.selected_db_index
      { name := "", doc_collections := 0, edge_collections := 0,
        system_collections := 0, accessible := false }).accessible = true)
    (h5 : oracle.collections (b.database_stats.getD b.selected_db_index
      { name := "", doc_collections := 0, edge_collections := 0,
        system_collections := 0, accessible := false }).name = .ok colls) :
    step oracle b .enter =
      (.next { b with collections := sortCollections colls,
                      selected_coll_index := 0, scroll_offset := 0,
                      view := .collectionList
                        (b.database_stats.getD b.selected_db_index
                          { name := "", doc_collections := 0,
                            edge_collections := 0, system_collections := 0,
                            accessible := false }).name },
       [.reqCollections (b.database_stats.getD b.selected_db_index
         { name := "", doc_collections := 0, edge_collections := 0,
           system_collections := 0, accessible := false }).name]) := by
  rw [step_dispatch_db oracle b .enter h1 h2]
  simp only [stepDatabaseList, load_collections]
  rw [if_pos h3, if_pos h4, h5]

theorem db_enter_fail (oracle : FetchOracle) (b : DatabaseBrowser)
    (h1 : b.input_state = .noInput) (h2 : b.view = .databaseList)
    (h3 : b.selected_db_index < b.database_stats.length)
    (h4 : (b.database_stats.getD b.selected_db_index
      { name := "", doc_collections := 0, edge_collections := 0,
        system_collections := 0, accessible := false }).accessible = true)
    (h5 : oracle.collections (b.database_stats.getD b.selected_db_index
      { name := "", doc_collections := 0, edge_collections := 0,
        system_collections := 0, accessible := false }).name = .error ()) :
    step oracle b .enter =
      (.fatal,
       [.reqCollections (b.database_stats.getD b.selected_db_index
         { name := "", doc_collections := 0, edge_collections := 0,
           system_collections := 0, accessible := false }).name]) := by
  rw [step_dispatch_db oracle b .enter h1 h2]
  simp only [stepDatabaseList, load_collections]
  rw [if_pos h3, if_pos h4, h5]

theorem db_enter_inaccessible (oracle : FetchOracle) (b : DatabaseBrowser)
    (h1 : b.input_state = .noInput) (h2 : b.view = .databaseList)
    (h3 : b.selected_db_index < b.database_stats.length)
    (h4 : ¬ (b.database_stats.getD b.selected_db_index
      { name := "", doc_collections := 0, edge_collections := 0,
        system_collections := 0, accessible := false }).accessible = true) :
    step oracle b .enter = (.next b, []) := by
  rw [step_dispatch_db oracle b .enter h1 h2]
  simp only [stepDatabaseList]
  rw [if_pos h3, if_neg h4]

theorem coll_q (oracle : FetchOracle) (b : DatabaseBrowser) (db : String)
    (h1 : b.input_state = .noInput) (h2 : b.view = .collectionList db) :
    step oracle b (.char 'q') =
      (.next { b with view := .databaseList, collections := [] }, []) := by
  rw [step_dispatch_coll oracle b db (.char 'q') h1 h2]
  simp only [stepCollectionList]

theorem coll_down (oracle : FetchOracle) (b : DatabaseBrowser) (db : String)
    (h1 : b.input_state = .noInput) (h2 : b.view = .collectionList db)
    (h3 : b.collections ≠ []) :
    step oracle b .down =
      (.next { b with selected_coll_index :=
        (b.selected_coll_index + 1) % b.collections.length }, []) := by
  rw [step_dispatch_coll oracle b db .down h1 h2]
  simp only [stepCollectionList]
  rw [if_pos h3]

theorem coll_up (oracle : FetchOracle) (b : DatabaseBrowser) (db : String)
    (h1 : b.input_state = .noInput) (h2 : b.view = .collectionList db)
    (h3 : b.collections ≠ []) :
    step oracle b .up =
      (.next { b with selected_coll_index :=
        if b.selected_coll_index = 0 then b.collections.length - 1
        else b.selected_coll_index - 1 }, []) := by
  rw [step_dispatch_coll oracle b db .up h1 h2]
  simp only [stepCollectionList]
  rw [if_pos h3]

theorem coll_backspace_empty (oracle : FetchOracle) (b : DatabaseBrowser)
    (db : String) (h1 : b.input_state = .noInput)
    (h2 : b.view = .collectionList db) (h3 : b.navigation_stack = []) :
    step oracle b .backspace = (.next b, []) := by
  rw [step_dispatch_coll oracle b db .backspace h1 h2]
  simp only [stepCollectionList, h3]

theorem coll_backspace_pop_ok (oracle : FetchOracle) (b : DatabaseBrowser)
    (db prev_db : String) (prev_index : Nat)
    (rest : List (BrowserView × Nat)) (gs : List GraphInfo)
    (h1 : b.input_state = .noInput) (h2 : b.view = .collectionList db)
    (h3 : b.navigation_stack = (.graphList prev_db, prev_index) :: rest)
    (h4 : oracle.graphs prev_db = .ok gs) :
    step oracle b .backspace =
      (.next { b with navigation_stack := rest, graphs := gs,
                      selected_graph_index := prev_index, scroll_offset := 0,
                      view := .graphList prev_db },
       [.reqGraphs prev_db]) := by
  rw [step_dispatch_coll oracle b db .backspace h1 h2]
  simp only [stepCollectionList, load_graphs, h3, h4]

theorem coll_backspace_pop_fail (oracle : FetchOracle) (b : DatabaseBrowser)
    (db prev_db : String) (prev_index : Nat)
    (rest : List (BrowserView × Nat))
    (h1 : b.input_state = .noInput) (h2 : b.view = .collectionList db)
    (h3 : b.navigation_stack = (.graphList prev_db, prev_index) :: rest)
    (h4 : oracle.graphs prev_db = .error ()) :
    step oracle b .backspace = (.fatal, [.reqGraphs prev_db]) := by
  rw [step_dispatch_coll oracle b db .backspace h1 h2]
  simp only [stepCollectionList, load_graphs, h3, h4]

theorem coll_g_ok (oracle : FetchOracle) (b : DatabaseBrowser)
    (db : String) (gs : List GraphInfo)
    (h1 : b.input_state = .noInput) (h2 : b.view = .collectionList db)
    (h4 : oracle.graphs db = .ok gs) :
    step oracle b (.char 'g') =
      (.next { b with graphs := gs, selected_graph_index := 0,
                      scroll_offset := 0, view := .graphList db },
       [.reqGraphs db]) := by
  rw [step_dispatch_coll oracle b db (.char 'g') h1 h2]
  simp only [stepCollectionList, load_graphs, h4]

theorem coll_g_fail (oracle : FetchOracle) (b : DatabaseBrowser) (db : String)
    (h1 : b.input_state = .noInput) (h2 : b.view = .collectionList db)
    (h4 : oracle.graphs db = .error ()) :
    step oracle b (.char 'g') = (.fatal, [.reqGraphs db]) := by
  rw [step_dispatch_coll oracle b db (.char 'g') h1 h2]
  simp only [stepCollectionList, load_graphs, h4]

theorem coll_enter_ok (oracle : FetchOracle) (b : DatabaseBrowser)
    (db : String) (details : CollectionCount)
    (h1 : b.input_state = .noInput) (h2 : b.view = .collectionList db)
    (h3 : b.selected_coll_index < b.collections.length)
    (h4 : oracle.collectionDetails db
      (b.collections.getD b.selected_coll_index dummyCollection).info.name =
        .ok details) :
    step oracle b .enter =
      (.next { b with collection_details := some details, scroll_offset := 0,
                      view := .collectionProperties db
                        (b.collections.getD b.selected_coll_index
                          dummyCollection).info.name },
       [.reqCollectionDetails db
          (b.collections.getD b.selected_coll_index dummyCollection).info.name]) := by
  rw [step_dispatch_coll oracle b db .enter h1 h2]
  simp only [stepCollectionList, load_collection_details]
  rw [if_pos h3, h4]

theorem coll_enter_fail (oracle : FetchOracle) (b : DatabaseBrowser)
    (db : String)
    (h1 : b.input_state = .noInput) (h2 : b.view = .collectionList db)
    (h3 : b.selected_coll_index < b.collections.length)
    (h4 : oracle.collectionDetails db
      (b.collections.getD b.selected_coll_index dummyCollection).info.name =
        .error ()) :
    step oracle b .enter =
      (.fatal,
       [.reqCollectionDetails db
          (b.collections.getD b.selected_coll_index dummyCollection).info.name]) := by
  rw [step_dispatch_coll oracle b db .enter h1 h2]
  simp only [stepCollectionList, load_collection_details]
  rw [if_pos h3, h4]

theorem graph_down (oracle : FetchOracle) (b : DatabaseBrowser) (db : String)
    (h1 : b.input_state = .noInput) (h2 : b.view = .graphList db)
    (h3 : b.graphs ≠ []) :
    step oracle b .down =
      (.next { b with selected_graph_index :=
        (b.selected_graph_index + 1) % total_rows b.graphs }, []) := by
  rw [step_dispatch_graph oracle b db .down h1 h2]
  simp only [stepGraphList]
  rw [if_pos h3, if_pos (total_rows_pos b.graphs h3)]

theorem graph_up (oracle : FetchOracle) (b : DatabaseBrowser) (db : String)
    (h1 : b.input_state = .noInput) (h2 : b.view = .graphList db)
    (h3 : b.graphs ≠ []) :
    step oracle b .up =
      (.next { b with selected_graph_index :=
        if b.selected_graph_index = 0 then total_rows b.graphs - 1
        else b.selected_graph_index - 1 }, []) := by
  rw [step_dispatch_graph oracle b db .up h1 h2]
  simp only [stepGraphList]
  rw [if_pos h3, if_pos (total_rows_pos b.graphs h3)]

theorem graph_q (oracle : FetchOracle) (b : DatabaseBrowser) (db : String)
    (h1 : b.input_state = .noInput) (h2 : b.view = .graphList db) :
    step oracle b (.char 'q') =
      (.next { b with view := .databaseList, graphs := [] }, []) := by
  rw [step_dispatch_graph oracle b db (.char 'q') h1 h2]
  simp only [stepGraphList]

theorem graph_c (oracle : FetchOracle) (b : DatabaseBrowser) (db : String)
    (h1 : b.input_state = .noInput) (h2 : b.view = .graphList db) :
    step oracle b (.char 'c') =
      (.next { b with view := .collectionList db }, []) := by
  rw [step_dispatch_graph oracle b db (.char 'c') h1 h2]
  simp only [stepGraphList]

theorem graph_enter_none (oracle : FetchOracle) (b : DatabaseBrowser)
    (db : String)
    (h1 : b.input_state = .noInput) (h2 : b.view = .graphList db)
    (h3 : find_selected_graph_item b = none) :
    step oracle b .enter = (.next b, []) := by
  rw [step_dispatch_graph oracle b db .enter h1 h2]
  simp only [stepGraphList, h3]

theorem graph_enter_header (oracle : FetchOracle) (b : DatabaseBrowser)
    (db : String) (graph_idx : Nat)
    (h1 : b.input_state = .noInput) (h2 : b.view = .graphList db)
    (h3 : find_selected_graph_item b = some (graph_idx, none)) :
    step oracle b .enter =
      (.next { b with
        graph_details := b.graphs.find?
          (fun g => g.name = (b.graphs.getD graph_idx dummyGraph).name),
        scroll_offset := 0,
        view := .graphProperties db (b.graphs.getD graph_idx dummyGraph).name },
       []) := by
  rw [step_dispatch_graph oracle b db .enter h1 h2]
  simp only [stepGraphList, load_graph_details, h3]

theorem graph_enter_edge_ok (oracle : FetchOracle) (b : DatabaseBrowser)
    (db : String) (graph_idx edge_idx : Nat) (colls : List CollectionWithCount)
    (h1 : b.input_state = .noInput) (h2 : b.view = .graphList db)
    (h3 : find_selected_graph_item b = some (graph_idx, some edge_idx))
    (h4 : oracle.collections db = .ok colls) :
    step oracle b .enter =
      (.next { b with
        navigation_stack := (b.view, b.selected_graph_index) :: b.navigation_stack,
        collections := sortCollections colls,
        selected_coll_index :=
          ((sortCollections colls).findIdx? (fun c => c.info.name =
            ((b.graphs.getD graph_idx dummyGraph).edge_definitions.getD edge_idx
              dummyEdgeDef).collection)).getD 0,
        scroll_offset := 0,
        view := .collectionList db },
       [.reqCollections db]) := by
  rw [step_dispatch_graph oracle b db .enter h1 h2]
  simp only [stepGraphList, load_collections, h3, h4]
  cases hidx : (sortCollections colls).findIdx? (fun c => c.info.name =
      ((b.graphs.getD graph_idx dummyGraph).edge_definitions.getD edge_idx
        dummyEdgeDef).collection) with
  | none => simp [hidx]
  | some pos => simp [hidx]

theorem graph_enter_edge_fail (oracle : FetchOracle) (b : DatabaseBrowser)
    (db : String) (graph_idx edge_idx : Nat)
    (h1 : b.input_state = .noInput) (h2 : b.view = .graphList db)
    (h3 : find_selected_graph_item b = some (graph_idx, some edge_idx))
    (h4 : oracle.collections db = .error ()) :
    step oracle b .enter = (.fatal, [.reqCollections db]) := by
  rw [step_dispatch_graph oracle b db .enter h1 h2]
  simp only [stepGraphList, load_collections, h3, h4]

theorem graph_v_none (oracle : FetchOracle) (b : DatabaseBrowser)
    (db : String)
    (h1 : b.input_state = .noInput) (h2 : b.view = .graphList db)
    (h3 : find_selected_graph_item b = none) :
    step oracle b (.char 'v') = (.next b, []) := by
  rw [step_dispatch_graph oracle b db (.char 'v') h1 h2]
  simp only [stepGraphList, h3]

theorem graph_v_header (oracle : FetchOracle) (b : DatabaseBrowser)
    (db : String) (graph_idx : Nat)
    (h1 : b.input_state = .noInput) (h2 : b.view = .graphList db)
    (h3 : find_selected_graph_item b = some (graph_idx, none)) :
    step oracle b (.char 'v') = (.next b, []) := by
  rw [step_dispatch_graph oracle b db (.char 'v') h1 h2]
  simp only [stepGraphList, h3]

theorem graph_v_empty_from (oracle : FetchOracle) (b : DatabaseBrowser)
    (db : String) (graph_idx edge_idx : Nat)
    (h1 : b.input_state = .noInput) (h2 : b.view = .graphList db)
    (h3 : find_selected_graph_item b = some (graph_idx, some edge_idx))
    (h4 : ((b.graphs.getD graph_idx dummyGraph).edge_definitions.getD edge_idx
      dummyEdgeDef).from_colls = []) :
    step oracle b (.char 'v') = (.next b, []) := by
  rw [step_dispatch_graph oracle b db (.char 'v') h1 h2]
  simp only [stepGraphList, h3, h4, List.head?_nil]

theorem graph_v_fail (oracle : FetchOracle) (b : DatabaseBrowser)
    (db first_from : String) (graph_idx edge_idx : Nat)
    (rest_from : List String)
    (h1 : b.input_state = .noInput) (h2 : b.view = .graphList db)
    (h3 : find_selected_graph_item b = some (graph_idx, some edge_idx))
    (h4 : ((b.graphs.getD graph_idx dummyGraph).edge_definitions.getD edge_idx
      dummyEdgeDef).from_colls = first_from :: rest_from)
    (h5 : oracle.collections db = .error ()) :
    step oracle b (.char 'v') = (.fatal, [.reqCollections db]) := by
  rw [step_dispatch_graph oracle b db (.char 'v') h1 h2]
  simp only [stepGraphList, h3, h4, List.head?_cons, load_collections, h5]

/-! The claims. -/

/-- C3: every collection list stored by `load_collections` is, regardless of
the order the server returned, a permutation of the fetched entries in which
all non-system collections come first in ascending name order, followed by
all system collections in ascending name order. -/
theorem claim_C3_collection_sort :
    ∀ l : List CollectionWithCount,
      (sortCollections l).Perm l ∧
      (sortCollections l).Pairwise (fun a b =>
        (a.info.is_system = false ∧ b.info.is_system = true) ∨
        (a.info.is_system = b.info.is_system ∧ a.info.name ≤ b.info.name)) := by
  intro l
  obtain ⟨hperm, hpw⟩ := sortCollections_spec l
  refine ⟨hperm, hpw.imp ?_⟩
  intro a b hab
  unfold collCmp at hab
  cases ha : a.info.is_system <;> cases hb : b.info.is_system <;>
      rw [ha, hb] at hab
  · exact Or.inr ⟨rfl, (strCmp_ne_gt_iff _ _).mp hab⟩
  · exact Or.inl ⟨rfl, rfl⟩
  · exact absurd rfl hab
  · exact Or.inr ⟨rfl, (strCmp_ne_gt_iff _ _).mp hab⟩

/-- C1: for a non-empty graph list the flattened listing has exactly
`Σ(1+E_i) + (G-1)` rows, in document order (header, edge rows, one spacer
between consecutive graphs); every cursor in `[0, total)` resolves to a row
of the listing — a well-formed graph header, a well-formed edge row of that
graph, or a spacer — with `find_selected_graph_item` agreeing with the
listing, and every cursor at or beyond the total resolving to nothing; and
in scenario B the rows are `[g1, e1, e2, spacer, g2]` with total 5. -/
theorem claim_C1_indexer_totality :
    (∀ graphs : List GraphInfo, graphs ≠ [] →
      total_rows graphs =
        (graphs.map (fun g => 1 + g.edge_definitions.length)).sum +
          (graphs.length - 1) ∧
      (flattenRows graphs).length = total_rows graphs ∧
      (∀ b : DatabaseBrowser, b.graphs = graphs →
        b.selected_graph_index < total_rows graphs →
        ∃ row : GraphRow,
          (flattenRows graphs).get? b.selected_graph_index = some row ∧
          rowWF graphs row ∧
          find_selected_graph_item b = rowItem row) ∧
      (∀ b : DatabaseBrowser, b.graphs = graphs →
        total_rows graphs ≤ b.selected_graph_index →
        find_selected_graph_item b = none)) ∧
    flattenRows [sampleG1, sampleG2] =
      [.header 0, .edge 0 0, .edge 0 1, .spacer, .header 1] ∧
    total_rows [sampleG1, sampleG2] = 5 := by
  refine ⟨?_, by decide, by decide⟩
  intro graphs _
  refine ⟨total_rows_eq graphs, flattenRows_length graphs, ?_, ?_⟩
  · intro b hg hc
    have hlen : b.selected_graph_index < (flattenRows graphs).length := by
      rw [flattenRows_length]; exact hc
    refine ⟨(flattenRows graphs).get ⟨b.selected_graph_index, hlen⟩,
      List.get?_eq_get hlen, ?_, ?_⟩
    · exact flattenRows_wf graphs _ (List.get_mem _ _ _)
    · rw [find_selected_eq_resolve, hg]
      unfold resolveRows
      rw [List.get?_eq_get hlen]
  · intro b hg hc
    rw [find_selected_eq_resolve, hg]
    unfold resolveRows
    rw [List.get?_eq_none.mpr (by rw [flattenRows_length]; exact hc)]

/-- Witness for C1 at scenario-B data: graphs `[g1, g2]`, cursor on row 1. -/
theorem claim_C1_witness :
    (∃ row : GraphRow,
      (flattenRows [sampleG1, sampleG2]).get? 1 = some row ∧
      rowWF [sampleG1, sampleG2] row ∧
      find_selected_graph_item cB1 = rowItem row) ∧
    find_selected_graph_item { cB1 with selected_graph_index := 9 } = none :=
  ⟨(claim_C1_indexer_totality.1 [sampleG1, sampleG2] (by decide)).2.2.1 cB1 rfl
    (by decide),
   (claim_C1_indexer_totality.1 [sampleG1, sampleG2] (by decide)).2.2.2
    { cB1 with selected_graph_index := 9 } rfl (by decide)⟩

/-- C4: in the database list, the collection list and the flattened graph
listing, with a non-empty dataset the Down key moves the cursor to
`(c+1) mod total` and the Up key to `total-1` when `c = 0` and `c-1`
otherwise; in particular Down at `total-1` wraps to `0` and Up at `0` wraps
to `total-1`. -/
theorem claim_C4_wraparound :
    ∀ (oracle : FetchOracle) (b : DatabaseBrowser),
      b.input_state = .noInput →
      ((b.view = .databaseList → b.database_stats ≠ [] →
        step oracle b .down =
          (.next { b with selected_db_index :=
            (b.selected_db_index + 1) % b.database_stats.length }, []) ∧
        step oracle b .up =
          (.next { b with selected_db_index :=
            if b.selected_db_index = 0 then b.database_stats.length - 1
            else b.selected_db_index - 1 }, []) ∧
        (b.selected_db_index = b.database_stats.length - 1 →
          (b.selected_db_index + 1) % b.database_stats.length = 0)) ∧
      (∀ db, b.view = .collectionList db → b.collections ≠ [] →
        step oracle b .down =
          (.next { b with selected_coll_index :=
            (b.selected_coll_index + 1) % b.collections.length }, []) ∧
        step oracle b .up =
          (.next { b with selected_coll_index :=
            if b.selected_coll_index = 0 then b.collections.length - 1
            else b.selected_coll_index - 1 }, []) ∧
        (b.selected_coll_index = b.collections.length - 1 →
          (b.selected_coll_index + 1) % b.collections.length = 0)) ∧
      (∀ db, b.view = .graphList db → b.graphs ≠ [] →
        0 < total_rows b.graphs ∧
        step oracle b .down =
          (.next { b with selected_graph_index :=
            (b.selected_graph_index + 1) % total_rows b.graphs }, []) ∧
        step oracle b .up =
          (.next { b with selected_graph_index :=
            if b.selected_graph_index = 0 then total_rows b.graphs - 1
            else b.selected_graph_index - 1 }, []) ∧
        (b.selected_graph_index = total_rows b.graphs - 1 →
          (b.selected_graph_index + 1) % total_rows b.graphs = 0))) := by
  intro oracle b h1
  refine ⟨?_, ?_, ?_⟩
  · intro h2 h3
    refine ⟨db_down oracle b h1 h2 h3, db_up oracle b h1 h2 h3, ?_⟩
    intro hc
    rw [hc, Nat.sub_add_cancel (List.length_pos.mpr h3), Nat.mod_self]
  · intro db h2 h3
    refine ⟨coll_down oracle b db h1 h2 h3, coll_up oracle b db h1 h2 h3, ?_⟩
    intro hc
    rw [hc, Nat.sub_add_cancel (List.length_pos.mpr h3), Nat.mod_self]
  · intro db h2 h3
    refine ⟨total_rows_pos b.graphs h3, graph_down oracle b db h1 h2 h3,
      graph_up oracle b db h1 h2 h3, ?_⟩
    intro hc
    rw [hc, Nat.sub_add_cancel (total_rows_pos b.graphs h3), Nat.mod_self]

/-- Witness for C4: wraparound at concrete states of all three list views. -/
theorem claim_C4_witness :
    step oracle6 cB6 .down =
      (.next { cB6 with selected_coll_index :=
        (cB6.selected_coll_index + 1) % cB6.collections.length }, []) ∧
    step (okOracle [mkDb "d"] [] []) cB2 .up =
      (.next { cB2 with selected_db_index :=
        if cB2.selected_db_index = 0 then cB2.database_stats.length - 1
        else cB2.selected_db_index - 1 }, []) ∧
    step oracle7 cB1 .down =
      (.next { cB1 with selected_graph_index :=
        (cB1.selected_graph_index + 1) % total_rows cB1.graphs }, []) := by
  refine ⟨?_, ?_, ?_⟩
  · exact ((claim_C4_wraparound oracle6 cB6 rfl).2.1 "db" rfl (by decide)).1
  · exact ((claim_C4_wraparound (okOracle [mkDb "d"] [] []) cB2 rfl).1 rfl
      (by decide)).2.1
  · exact ((claim_C4_wraparound oracle7 cB1 rfl).2.2 "d" rfl (by decide)).2.1

/-- C5: while the document-count modal is active it consumes every key: a
digit appends to the buffer, backspace removes the last character, Esc
cancels with no other state change, Enter confirms (closing the modal and
triggering the document-sampling fetch when the collection list is active,
with its three outcomes), and every other key leaves the state untouched; no
view-transition rule of the underlying view fires for any key. -/
theorem claim_C5_modal_isolation :
    ∀ (oracle : FetchOracle) (b : DatabaseBrowser) (input : String),
      b.input_state = .enteringDocumentCount input →
      ((∀ c : Char, c.isDigit →
        step oracle b (.char c) =
          (.next { b with input_state :=
            .enteringDocumentCount (input.push c) }, [])) ∧
      (∀ c : Char, ¬ c.isDigit →
        step oracle b (.char c) = (.next b, [])) ∧
      step oracle b .backspace =
        (.next { b with input_state :=
          .enteringDocumentCount (input.dropRight 1) }, []) ∧
      step oracle b .esc = (.next { b with input_state := .noInput }, []) ∧
      (∀ k, k = KeyCode.down ∨ k = .up ∨ k = .pageDown ∨ k = .pageUp ∨
          k = .other → step oracle b k = (.next b, [])) ∧
      (∀ db docs, b.view = .collectionList db →
        b.selected_coll_index < b.collections.length →
        oracle.documents db
            (b.collections.getD b.selected_coll_index dummyCollection).info.name
            (parse_or_ten input) = .ok docs →
        step oracle b .enter =
          (.next { b with input_state := .noInput, documents := docs,
                          scroll_offset := 0,
                          view := .documentViewer db
                            (b.collections.getD b.selected_coll_index
                              dummyCollection).info.name },
           [.reqDocuments db
              (b.collections.getD b.selected_coll_index dummyCollection).info.name
              (parse_or_ten input)])) ∧
      (∀ db, b.view = .collectionList db →
        b.selected_coll_index < b.collections.length →
        oracle.documents db
            (b.collections.getD b.selected_coll_index dummyCollection).info.name
            (parse_or_ten input) = .error () →
        step oracle b .enter =
          (.fatal,
           [.reqDocuments db
              (b.collections.getD b.selected_coll_index dummyCollection).info.name
              (parse_or_ten input)])) ∧
      (∀ db, b.view = .collectionList db →
        ¬ b.selected_coll_index < b.collections.length →
        step oracle b .enter =
          (.next { b with input_state := .noInput }, [])) ∧
      ((∀ db, b.view ≠ .collectionList db) →
        step oracle b .enter =
          (.next { b with input_state := .noInput }, []))) := by
  intro oracle b input h1
  refine ⟨fun c hc => modal_digit oracle b input c h1 hc,
    fun c hc => modal_nondigit oracle b input c h1 hc,
    modal_backspace oracle b input h1,
    modal_esc oracle b input h1,
    fun k hk => modal_inert oracle b input k h1 hk,
    fun db docs h2 h3 h4 => modal_enter_ok oracle b input db docs h1 h2 h3 h4,
    fun db h2 h3 h4 => modal_enter_fail oracle b input db h1 h2 h3 h4,
    fun db h2 h3 => modal_enter_oob oracle b input db h1 h2 h3,
    fun h2 => modal_enter_nonlist oracle b input h1 h2⟩

/-- Witness for C5: cancelling and confirming at a concrete modal state. -/
theorem claim_C5_witness :
    step oracle6 cB6a .esc = (.next { cB6a with input_state := .noInput }, []) ∧
    step oracle6 cB6a (.char '7') =
      (.next { cB6a with input_state := .enteringDocumentCount "107" }, []) := by
  constructor
  · exact (claim_C5_modal_isolation oracle6 cB6a "10" rfl).2.2.2.1
  · exact (claim_C5_modal_isolation oracle6 cB6a "10" rfl).1 '7' (by decide)

/-- C2 counterexample: with database `d` accessible but the collection-list
fetch failing, activating `d` does not leave the controller on the database
list — the fetch error propagates out of the event loop (the `?` in
`run_database_browser`), terminating the browser. -/
theorem claim_C2_counterexample :
    (step oracleFailColls cB2 .enter).1 = .fatal ∧
    (step oracleFailColls cB2 .enter).1 ≠ .next cB2 ∧
    (step oracleFailColls cB2 .enter).2 = [.reqCollections "d"] := by
  decide

/-- C2 (amended): only the top-level database-list fetch failure is handled —
it sets the sticky `accessible = false` flag and changes nothing else; every
other fetch failure during a transition (collection list, collection detail,
graph list, document sample, from any of the transitions that issue them)
propagates as an error that terminates the event loop instead of leaving the
user on the prior view. -/
theorem claim_C2_failure_semantics :
    (∀ b : DatabaseBrowser,
      load_databases b (.error ()) = { b with accessible := false }) ∧
    (∀ oracle : FetchOracle, oracle.databases = .error () →
      initBrowser oracle = { DatabaseBrowser.new with accessible := false }) ∧
    (∀ (oracle : FetchOracle) (b : DatabaseBrowser),
      b.input_state = .noInput →
      ((b.view = .databaseList →
        b.selected_db_index < b.database_stats.length →
        (b.database_stats.getD b.selected_db_index
          { name := "", doc_collections := 0, edge_collections := 0,
            system_collections := 0, accessible := false }).accessible = true →
        oracle.collections (b.database_stats.getD b.selected_db_index
          { name := "", doc_collections := 0, edge_collections := 0,
            system_collections := 0, accessible := false }).name = .error () →
        (step oracle b .enter).1 = .fatal) ∧
      (∀ db, b.view = .collectionList db →
        oracle.graphs db = .error () →
        (step oracle b (.char 'g')).1 = .fatal) ∧
      (∀ db, b.view = .collectionList db →
        b.selected_coll_index < b.collections.length →
        oracle.collectionDetails db
          (b.collections.getD b.selected_coll_index dummyCollection).info.name =
            .error () →
        (step oracle b .enter).1 = .fatal) ∧
      (∀ db prev_db prev_index rest, b.view = .collectionList db →
        b.navigation_stack = (.graphList prev_db, prev_index) :: rest →
        oracle.graphs prev_db = .error () →
        (step oracle b .backspace).1 = .fatal) ∧
      (∀ db graph_idx edge_idx, b.view = .graphList db →
        find_selected_graph_item b = some (graph_idx, some edge_idx) →
        oracle.collections db = .error () →
        (step oracle b .enter).1 = .fatal))) ∧
    (∀ (oracle : FetchOracle) (b : DatabaseBrowser) (input db : String),
      b.input_state = .enteringDocumentCount input →
      b.view = .collectionList db →
      b.selected_coll_index < b.collections.length →
      oracle.documents db
          (b.collections.getD b.selected_coll_index dummyCollection).info.name
          (parse_or_ten input) = .error () →
      (step oracle b .enter).1 = .fatal) := by
  refine ⟨fun b => rfl, ?_, ?_, ?_⟩
  · intro oracle h
    unfold initBrowser
    rw [h]
    rfl
  · intro oracle b h1
    refine ⟨?_, ?_, ?_, ?_, ?_⟩
    · intro h2 h3 h4 h5
      rw [db_enter_fail oracle b h1 h2 h3 h4 h5]
    · intro db h2 h3
      rw [coll_g_fail oracle b db h1 h2 h3]
    · intro db h2 h3 h4
      rw [coll_enter_fail oracle b db h1 h2 h3 h4]
    · intro db prev_db prev_index rest h2 h3 h4
      rw [coll_backspace_pop_fail oracle b db prev_db prev_index rest h1 h2 h3 h4]
    · intro db graph_idx edge_idx h2 h3 h4
      rw [graph_enter_edge_fail oracle b db graph_idx edge_idx h1 h2 h3 h4]
  · intro oracle b input db h1 h2 h3 h4
    rw [modal_enter_fail oracle b input db h1 h2 h3 h4]

/-- Witness for C2: each failing fetch at a concrete state. -/
theorem claim_C2_witness :
    load_databases cB2 (.error ()) = { cB2 with accessible := false } ∧
    initBrowser oracleDbFail = { DatabaseBrowser.new with accessible := false } ∧
    (step oracleFailColls cB2 .enter).1 = .fatal ∧
    (step oracleFailColls cB6 (.char 'g')).1 = .fatal ∧
    (step oracleFailColls cB6 .enter).1 = .fatal ∧
    (step oracleFailColls cB8s .backspace).1 = .fatal ∧
    (step oracleFailColls cB10 .enter).1 = .fatal ∧
    (step oracleFailColls cB6a .enter).1 = .fatal := by
  refine ⟨claim_C2_failure_semantics.1 cB2,
    claim_C2_failure_semantics.2.1 oracleDbFail rfl,
    (claim_C2_failure_semantics.2.2.1 oracleFailColls cB2 rfl).1 rfl (by decide)
      (by decide) rfl,
    (claim_C2_failure_semantics.2.2.1 oracleFailColls cB6 rfl).2.1 "db" rfl rfl,
    (claim_C2_failure_semantics.2.2.1 oracleFailColls cB6 rfl).2.2.1 "db" rfl
      (by decide) rfl,
    (claim_C2_failure_semantics.2.2.1 oracleFailColls cB8s rfl).2.2.2.1 "db"
      "d" 2 [] rfl rfl rfl,
    (claim_C2_failure_semantics.2.2.1 oracleFailColls cB10 rfl).2.2.2.2 "d"
      0 0 rfl (by decide) rfl,
    claim_C2_failure_semantics.2.2.2 oracleFailColls cB6a "10" "db" rfl rfl
      (by decide) rfl⟩

/-- C6 counterexample: the modal opens with the buffer pre-filled to `"10"`,
so opening it, typing `1` then `0` and confirming requests a fetch with
limit `1010`, not `10` as the claim states. -/
theorem claim_C6_counterexample :
    step oracle6 cB6 (.char ' ') = (.next cB6a, []) ∧
    step oracle6 cB6a (.char '1') = (.next cB6b, []) ∧
    step oracle6 cB6b (.char '0') = (.next cB6c, []) ∧
    (step oracle6 cB6c .enter).2 = [.reqDocuments "db" "c0" 1010] ∧
    (1010 : Nat) ≠ 10 := by
  refine ⟨?_, ?_, ?_, ?_, by decide⟩ <;> decide

/-- C6 (amended): confirming parses the buffer as a non-negative integer
with 10 as the default for a malformed or empty buffer — but the modal opens
with the buffer pre-filled to `"10"`.  Hence opening and immediately
confirming requests limit 10, opening then typing `1` and `0` requests limit
1010, and confirming after clearing the buffer requests the default 10. -/
theorem claim_C6_document_count_default :
    (∀ (oracle : FetchOracle) (b : DatabaseBrowser) (db : String),
      b.input_state = .noInput → b.view = .collectionList db →
      step oracle b (.char ' ') =
        (.next { b with input_state := .enteringDocumentCount "10" }, [])) ∧
    (∀ (oracle : FetchOracle) (b : DatabaseBrowser) (input db : String)
      (docs : List DocValue),
      b.input_state = .enteringDocumentCount input →
      b.view = .collectionList db →
      b.selected_coll_index < b.collections.length →
      oracle.documents db
          (b.collections.getD b.selected_coll_index dummyCollection).info.name
          (parse_or_ten input) = .ok docs →
      (step oracle b .enter).2 =
        [.reqDocuments db
           (b.collections.getD b.selected_coll_index dummyCollection).info.name
           (parse_or_ten input)]) ∧
    parse_or_ten "" = 10 ∧
    parse_or_ten "10" = 10 ∧
    parse_or_ten "1010" = 1010 ∧
    parse_or_ten "x7" = 10 := by
  refine ⟨?_, ?_, by decide, by decide, by decide, by decide⟩
  · intro oracle b db h1 h2
    exact space_opens_modal oracle b db h1 h2
  · intro oracle b input db docs h1 h2 h3 h4
    rw [modal_enter_ok oracle b input db docs h1 h2 h3 h4]

/-- Witness for C6: opening then immediately confirming, and confirming an
emptied buffer, both request limit 10. -/
theorem claim_C6_witness :
    step oracle6 cB6 (.char ' ') =
      (.next { cB6 with input_state := .enteringDocumentCount "10" }, []) ∧
    (step oracle6 cB6a .enter).2 = [.reqDocuments "db" "c0" 10] ∧
    (step oracle6 { cB6 with input_state := .enteringDocumentCount "" }
        .enter).2 = [.reqDocuments "db" "c0" 10] := by
  refine ⟨claim_C6_document_count_default.1 oracle6 cB6 "db" rfl rfl, ?_, ?_⟩
  · exact claim_C6_document_count_default.2.1 oracle6 cB6a "10" "db" [] rfl rfl
      (by decide) rfl
  · exact claim_C6_document_count_default.2.1 oracle6
      { cB6 with input_state := .enteringDocumentCount "" } "" "db" [] rfl rfl
      (by decide) rfl

/-- C7: activating an edge-definition row pushes the current (view, index)
pair onto the navigation stack, fetches and sorts the database's collection
list, remaps the collection cursor to the position of the edge collection
(0 if absent), and enters the collection list; scenario E: with `knows` at
position 3 of the sorted list the resulting cursor is 3 and the stack holds
one entry with the graph view's prior index. -/
theorem claim_C7_edge_jump :
    (∀ (oracle : FetchOracle) (b : DatabaseBrowser) (db : String)
      (graph_idx edge_idx : Nat) (colls : List CollectionWithCount),
      b.input_state = .noInput → b.view = .graphList db →
      find_selected_graph_item b = some (graph_idx, some edge_idx) →
      oracle.collections db = .ok colls →
      step oracle b .enter =
        (.next { b with
          navigation_stack :=
            (b.view, b.selected_graph_index) :: b.navigation_stack,
          collections := sortCollections colls,
          selected_coll_index :=
            ((sortCollections colls).findIdx? (fun c => c.info.name =
              ((b.graphs.getD graph_idx dummyGraph).edge_definitions.getD
                edge_idx dummyEdgeDef).collection)).getD 0,
          scroll_offset := 0,
          view := .collectionList db },
         [.reqCollections db])) ∧
    step oracle7 cB7 .enter = (.next cB7', [.reqCollections "d"]) ∧
    cB7'.selected_coll_index = 3 ∧
    cB7'.navigation_stack = [(.graphList "d", 1)] ∧
    (sortCollections knowsColls).getD 3 dummyCollection =
      mkColl "knows" false 3 := by
  refine ⟨?_, by decide, by decide, by decide, by decide⟩
  intro oracle b db graph_idx edge_idx colls h1 h2 h3 h4
  exact graph_enter_edge_ok oracle b db graph_idx edge_idx colls h1 h2 h3 h4

/-- Witness for C7: the general jump rule applied at the scenario-E state. -/
theorem claim_C7_witness :
    step oracle7 cB7 .enter =
      (.next { cB7 with
        navigation_stack :=
          (cB7.view, cB7.selected_graph_index) :: cB7.navigation_stack,
        collections := sortCollections knowsColls,
        selected_coll_index :=
          ((sortCollections knowsColls).findIdx? (fun c => c.info.name =
            ((cB7.graphs.getD 0 dummyGraph).edge_definitions.getD 0
              dummyEdgeDef).collection)).getD 0,
        scroll_offset := 0,
        view := .collectionList "d" },
       [.reqCollections "d"]) :=
  claim_C7_edge_jump.1 oracle7 cB7 "d" 0 0 knowsColls rfl rfl (by decide) rfl

/-- C8 counterexample: with an empty navigation stack, the back command on
the collection list is a no-op — the view stays `CollectionList` instead of
falling back to `DatabaseList` as the claim states. -/
theorem claim_C8_counterexample :
    step oracle6 cB6 .backspace = (.next cB6, []) ∧
    cB6.view = .collectionList "db" ∧
    cB6.view ≠ .databaseList := by
  refine ⟨?_, by decide, by decide⟩
  decide

/-- C8 (amended): back-navigation from the collection list pops a non-empty
stack, re-fetches the popped graph list, restores the saved selection index
and makes the popped view current (so push-then-pop restores exactly the
pushed pair with a fresh dataset); with an empty stack the back command is a
no-op, and returning to the database list is done by the separate close key,
which ignores the stack. -/
theorem claim_C8_back_navigation :
    ∀ (oracle : FetchOracle) (b : DatabaseBrowser) (db : String),
      b.input_state = .noInput → b.view = .collectionList db →
      ((∀ prev_db prev_index rest gs,
        b.navigation_stack = (.graphList prev_db, prev_index) :: rest →
        oracle.graphs prev_db = .ok gs →
        step oracle b .backspace =
          (.next { b with navigation_stack := rest, graphs := gs,
                          selected_graph_index := prev_index,
                          scroll_offset := 0, view := .graphList prev_db },
           [.reqGraphs prev_db])) ∧
      (b.navigation_stack = [] → step oracle b .backspace = (.next b, [])) ∧
      step oracle b (.char 'q') =
        (.next { b with view := .databaseList, collections := [] }, [])) := by
  intro oracle b db h1 h2
  refine ⟨?_, ?_, coll_q oracle b db h1 h2⟩
  · intro prev_db prev_index rest gs h3 h4
    exact coll_backspace_pop_ok oracle b db prev_db prev_index rest gs h1 h2 h3 h4
  · intro h3
    exact coll_backspace_empty oracle b db h1 h2 h3

/-- Witness for C8: pop-restore at a concrete state (the stack entry saved
cursor 2; after back-navigation the graph view is current with cursor 2 and
a freshly fetched graph list), and the empty-stack no-op. -/
theorem claim_C8_witness :
    step oracle9b cB8s .backspace =
      (.next { cB8s with navigation_stack := [],
                         graphs := [mkGraph "solo" []],
                         selected_graph_index := 2, scroll_offset := 0,
                         view := .graphList "d" },
       [.reqGraphs "d"]) ∧
    step oracle6 cB6 .backspace = (.next cB6, []) := by
  constructor
  · exact (claim_C8_back_navigation oracle9b cB8s "db" rfl rfl).1 "d" 2 []
      [mkGraph "solo" []] rfl rfl
  · exact (claim_C8_back_navigation oracle6 cB6 "db" rfl rfl).2.1 rfl

/-- C10: when the cursor of the graph view is on a graph header row, a
spacer row, or an edge-definition row whose `from` vertex list is empty, the
jump-to-vertex command is a complete no-op: the state is unchanged and no
fetch is issued (so nothing is pushed and nothing reloads). -/
theorem claim_C10_vertex_jump_noop :
    ∀ (oracle : FetchOracle) (b : DatabaseBrowser) (db : String),
      b.input_state = .noInput → b.view = .graphList db →
      ((find_selected_graph_item b = none →
        step oracle b (.char 'v') = (.next b, [])) ∧
      (∀ graph_idx, find_selected_graph_item b = some (graph_idx, none) →
        step oracle b (.char 'v') = (.next b, [])) ∧
      (∀ graph_idx edge_idx,
        find_selected_graph_item b = some (graph_idx, some edge_idx) →
        ((b.graphs.getD graph_idx dummyGraph).edge_definitions.getD edge_idx
          dummyEdgeDef).from_colls = [] →
        step oracle b (.char 'v') = (.next b, []))) := by
  intro oracle b db h1 h2
  refine ⟨?_, ?_, ?_⟩
  · intro h3; exact graph_v_none oracle b db h1 h2 h3
  · intro graph_idx h3; exact graph_v_header oracle b db graph_idx h1 h2 h3
  · intro graph_idx edge_idx h3 h4
    exact graph_v_empty_from oracle b db graph_idx edge_idx h1 h2 h3 h4

/-- Witness for C10: the command at a concrete edge row with an empty `from`
list, and at a header row. -/
theorem claim_C10_witness :
    step oracle6 cB10 (.char 'v') = (.next cB10, []) ∧
    step oracle6 { cB10 with selected_graph_index := 0 } (.char 'v') =
      (.next { cB10 with selected_graph_index := 0 }, []) := by
  constructor
  · exact (claim_C10_vertex_jump_noop oracle6 cB10 "d" rfl rfl).2.2 0 0
      (by decide) (by decide)
  · exact (claim_C10_vertex_jump_noop oracle6
      { cB10 with selected_graph_index := 0 } "d" rfl rfl).2.1 0 (by decide)

/-- C9 counterexample: a reachable state of the graph view whose selection
index is out of bounds for the loaded dataset.  Back-navigation re-fetches
the graph list and then restores the saved index without clamping; when the
re-fetched list shrank (here to one graph with no edge definitions, a single
flattened row), the restored cursor 2 addresses no row. -/
theorem claim_C9_counterexample :
    Reachable b9_6 ∧ b9_6.view = .graphList "d" ∧
    b9_6.graphs ≠ [] ∧ ¬ activeSelectionOk b9_6 := by
  refine ⟨?_, by decide, by decide, ?_⟩
  · refine Reachable.step oracle9b .backspace b9_5 b9_6 ?_ (by decide)
    refine Reachable.step oracle9a .enter b9_4 b9_5 ?_ (by decide)
    refine Reachable.step oracle9a .down b9_3 b9_4 ?_ (by decide)
    refine Reachable.step oracle9a .down b9_2 b9_3 ?_ (by decide)
    refine Reachable.step oracle9a (.char 'g') b9_1 b9_2 ?_ (by decide)
    refine Reachable.step oracle9a .enter b9_0 b9_1 ?_ (by decide)
    exact Reachable.init oracle9a
  · intro h
    have h' : graphIndexOk b9_6 := h
    simp only [graphIndexOk] at h'
    revert h'
    decide

/-- C9 (amended): in every reachable state the database-list selection index
is within the loaded database list and the collection-list selection index is
within the loaded collection list (trivially so when the dataset is empty),
so those views never expose an out-of-bounds cursor; the graph view does not
enjoy this invariant — back-navigation restores a saved cursor against a
freshly re-fetched dataset without clamping (see the counterexample). -/
theorem claim_C9_selection_validity :
    ∀ b : DatabaseBrowser, Reachable b →
      dbIndexOk b ∧
      (b.view = .databaseList → activeSelectionOk b) ∧
      (∀ db, b.view = .collectionList db →
        collIndexOk b ∧ activeSelectionOk b) := by
  intro b hr
  obtain ⟨hdb, hcoll⟩ := reachable_selInv b hr
  refine ⟨hdb, ?_, ?_⟩
  · intro hv
    unfold activeSelectionOk
    rw [hv]
    exact hdb
  · intro db hv
    have hcl : collIndexOk b := hcoll (by rw [hv]; simp)
    refine ⟨hcl, ?_⟩
    unfold activeSelectionOk
    rw [hv]
    exact hcl

/-- Witness for C9: the invariant at the concrete loop-entry state. -/
theorem claim_C9_witness :
    dbIndexOk b9_0 ∧
    (b9_0.view = .databaseList → activeSelectionOk b9_0) ∧
    (∀ db, b9_0.view = .collectionList db →
      collIndexOk b9_0 ∧ activeSelectionOk b9_0) :=
  claim_C9_selection_validity b9_0 (Reachable.init oracle9a)
